import Mathlib

/-!
Verification of the Content Hoarder plugin (src/index.ts) against its
specification.

Modelling conventions for the shallow embedding:

* The host key/value storage (StorageProxy) is modelled as a function from
  string keys to optional tagged values, matching the get/set/delete contract
  of the gateway (and of the MockStorage map used by the repository's test
  script).  The handlers never call list/getMany/setMany, so those are not
  modelled.
* ISO-8601 timestamps are modelled as natural numbers (epoch milliseconds);
  the toISOString / new Date(x).getTime() round trip is injective and
  order-preserving, so comparisons and sorting are faithful.
* Asynchronous external effects are oracle inputs bundled in Ext: the two
  rss parseURL calls, the single-page fetch+extract result, the resolved
  OPENAI_API_KEY, and the chat-completion outcome (a thrown error, or a
  nullable message content).  A thrown JavaScript Error is modelled by its
  message string.
* storage.set is an awaited promise that may reject; rejections are injected
  through the setOutcomes stream of Sys (none = resolve, some e = reject
  without writing).  storage.get and storage.delete are modelled as total,
  like the map-backed implementation.
* generateId and new Date() draw from the idSeq / timeSeq streams of Sys in
  call order, with a fixed default once exhausted.
* The source reads the index with the unchecked cast (index as string[]) || [].
  Every caller immediately uses the result as an array (length, includes,
  filter, for-of), so a non-array value at the index key raises a TypeError
  at that first use; the model folds that error into the index read.
  Conversely (content as ContentPiece) || null yields null exactly when the
  key is absent; the model decodes a non-content value at a content key as
  absent (such a value can only sit at the colliding key content:index).
* Numeric action inputs (limit, offset) are modelled as naturals with the
  JavaScript falsy-coalescing defaulting of the source ((x as number) || d).
* Prompt strings sent to the model only feed the external oracle and are not
  tracked.
-/

-- ===========================================================================
-- Data model (src/index.ts lines 15-35)
-- ===========================================================================

/-- The inspirationType union type: single page or feed item. -/
inductive InspirationType where
  | single
  | feed
  deriving DecidableEq, Repr

/-- One unit of collected content (interface ContentPiece). -/
structure ContentPiece where
  id : String
  title : String
  source : String
  content : String
  summary : Option String
  tags : List String
  addedAt : Nat
  inspirationType : InspirationType
  deriving DecidableEq, Repr

/-- A generated article (interface Article). -/
structure Article where
  id : String
  title : String
  content : String
  sourceContentIds : List String
  instructions : String
  version : Nat
  createdAt : Nat
  updatedAt : Nat
  deriving DecidableEq, Repr

/-- A value held by the key/value store: a content record, an article record,
or an id list (an index). -/
inductive StorageValue where
  | content (c : ContentPiece)
  | article (a : Article)
  | index (ids : List String)
  deriving DecidableEq, Repr

/-- The key/value store, as the get contract sees it. -/
def Storage := String → Option StorageValue

-- ===========================================================================
-- Storage keys (src/index.ts lines 58-63)
-- ===========================================================================

/-- STORAGE_KEYS.content. -/
def contentKey (id : String) : String := "content:" ++ id

/-- STORAGE_KEYS.contentIndex. -/
def contentIndexKey : String := "content:index"

/-- STORAGE_KEYS.article. -/
def articleKey (id : String) : String := "article:" ++ id

/-- STORAGE_KEYS.articleIndex. -/
def articleIndexKey : String := "article:index"

-- ===========================================================================
-- System state and primitive storage operations
-- ===========================================================================

/-- The world state threaded through a handler: the store plus the oracle
streams for generated ids, clock readings, and storage.set outcomes. -/
structure Sys where
  store : Storage
  idSeq : List String
  timeSeq : List Nat
  setOutcomes : List (Option String)

/-- Functional update of the store, the semantics of an applied set. -/
def Storage.setKey (st : Storage) (key : String) (v : StorageValue) : Storage :=
  fun k => if k = key then some v else st k

/-- Functional removal, the semantics of an applied delete. -/
def Storage.delKey (st : Storage) (key : String) : Storage :=
  fun k => if k = key then none else st k

/-- An awaited storage.set call: the next injected outcome decides whether the
promise resolves (and the write lands) or rejects (and nothing is written). -/
def storageSet (key : String) (v : StorageValue) (s : Sys) :
    Except String Unit × Sys :=
  match s.setOutcomes with
  | [] => (Except.ok (), { s with store := s.store.setKey key v })
  | none :: rest =>
      (Except.ok (), { s with store := s.store.setKey key v, setOutcomes := rest })
  | some e :: rest => (Except.error e, { s with setOutcomes := rest })

/-- An awaited storage.delete call: reports whether the key was present and
removes it. -/
def storageDelete (key : String) (s : Sys) : Bool × Sys :=
  ((s.store key).isSome, { s with store := s.store.delKey key })

/-- generateId: the next id from the stream. -/
def genId (s : Sys) : String × Sys :=
  match s.idSeq with
  | [] => ("", s)
  | id :: rest => (id, { s with idSeq := rest })

/-- new Date().toISOString(): the next clock reading from the stream. -/
def nowTime (s : Sys) : Nat × Sys :=
  match s.timeSeq with
  | [] => (0, s)
  | t :: rest => (t, { s with timeSeq := rest })

-- ===========================================================================
-- JavaScript truthiness helpers
-- ===========================================================================

/-- JavaScript string defaulting (a || d): undefined, null and the empty
string are falsy. -/
def jsOrString (v : Option String) (d : String) : String :=
  match v with
  | some s => if s = "" then d else s
  | none => d

/-- JavaScript numeric defaulting ((x as number) || d): an absent field and 0
are falsy. -/
def jsOrNat (v : Option Nat) (d : Nat) : Nat :=
  match v with
  | some n => if n = 0 then d else n
  | none => d

-- ===========================================================================
-- Storage helpers (src/index.ts lines 134-185)
-- ===========================================================================

/-- getContentIndex: read of the content index.  A non-array value at the key
surfaces as the TypeError its caller would raise at the first array use. -/
def getContentIndex (st : Storage) : Except String (List String) :=
  match st contentIndexKey with
  | none => Except.ok []
  | some (StorageValue.index ids) => Except.ok ids
  | some _ => Except.error "TypeError: content index is not an array"

/-- getContent: direct lookup of a content record. -/
def getContent (st : Storage) (id : String) : Option ContentPiece :=
  match st (contentKey id) with
  | some (StorageValue.content c) => some c
  | _ => none

/-- setContent: write the record under its id key, then append the id to the
index when it is not already there. -/
def setContent (c : ContentPiece) (s : Sys) : Except String Unit × Sys :=
  match storageSet (contentKey c.id) (StorageValue.content c) s with
  | (Except.error e, s1) => (Except.error e, s1)
  | (Except.ok _, s1) =>
    match getContentIndex s1.store with
    | Except.error e => (Except.error e, s1)
    | Except.ok index =>
      if c.id ∈ index then (Except.ok (), s1)
      else storageSet contentIndexKey (StorageValue.index (index ++ [c.id])) s1

/-- deleteContentById: delete the record key; only when the delete reported
success, filter the id out of the index.  Returns whether removal occurred. -/
def deleteContentById (id : String) (s : Sys) : Except String Bool × Sys :=
  match storageDelete (contentKey id) s with
  | (false, s1) => (Except.ok false, s1)
  | (true, s1) =>
    match getContentIndex s1.store with
    | Except.error e => (Except.error e, s1)
    | Except.ok index =>
      match storageSet contentIndexKey
          (StorageValue.index (index.filter (fun i => i ≠ id))) s1 with
      | (Except.error e, s2) => (Except.error e, s2)
      | (Except.ok _, s2) => (Except.ok true, s2)

/-- getArticleIndex: read of the article index, as for the content index. -/
def getArticleIndex (st : Storage) : Except String (List String) :=
  match st articleIndexKey with
  | none => Except.ok []
  | some (StorageValue.index ids) => Except.ok ids
  | some _ => Except.error "TypeError: article index is not an array"

/-- getArticle: direct lookup of an article record. -/
def getArticle (st : Storage) (id : String) : Option Article :=
  match st (articleKey id) with
  | some (StorageValue.article a) => some a
  | _ => none

/-- setArticle: write the record under its id key, then append the id to the
article index when it is not already there. -/
def setArticle (a : Article) (s : Sys) : Except String Unit × Sys :=
  match storageSet (articleKey a.id) (StorageValue.article a) s with
  | (Except.error e, s1) => (Except.error e, s1)
  | (Except.ok _, s1) =>
    match getArticleIndex s1.store with
    | Except.error e => (Except.error e, s1)
    | Except.ok index =>
      if a.id ∈ index then (Except.ok (), s1)
      else storageSet articleIndexKey (StorageValue.index (index ++ [a.id])) s1


-- ===========================================================================
-- Result envelopes and action inputs (src/index.ts lines 191-196, 594-599)
-- ===========================================================================

/-- A JSON-like value carried inside a result envelope. -/
inductive JValue where
  | str (s : String)
  | num (n : Nat)
  | arr (xs : List JValue)
  | obj (fields : List (String × JValue))
  deriving Repr

/-- The ActionResult envelope returned by every handler. -/
structure ActionResult where
  responseMode : String
  agentData : Option (List (String × JValue)) := none
  userContent : Option (List (String × JValue)) := none
  deriving Repr

/-- A result of responseMode template carrying agentData fields. -/
def templateResult (fields : List (String × JValue)) : ActionResult :=
  { responseMode := "template", agentData := some fields }

/-- A result of responseMode passthrough carrying userContent fields. -/
def passthroughResult (fields : List (String × JValue)) : ActionResult :=
  { responseMode := "passthrough", userContent := some fields }

/-- The passthrough error payload shape used by the handlers. -/
def passthroughError (msg : String) : ActionResult :=
  passthroughResult [("contentType", JValue.str "error"), ("content", JValue.str msg)]

/-- The free-form input payload, with one field per key a handler reads.
Fields the handlers read with a truthiness default are optional; the fields a
handler requires are plain. -/
structure ActionInput where
  url : String := ""
  tags : Option (List String) := none
  limit : Option Nat := none
  offset : Option Nat := none
  contentId : String := ""
  contentIds : List String := []
  instructions : String := ""
  title : Option String := none
  articleId : String := ""
  additionalContentIds : Option (List String) := none

-- ===========================================================================
-- External oracle outcomes
-- ===========================================================================

/-- A raw rss item as the parser surfaces it, every field possibly absent. -/
structure RawFeedItem where
  title : Option String := none
  contentSnippet : Option String := none
  content : Option String := none
  summary : Option String := none
  link : Option String := none
  deriving Repr

/-- The result of the single-page fetch and extraction pipeline. -/
structure SinglePage where
  title : String
  content : String
  deriving Repr

/-- Bundled outcomes of the external calls one invocation can make: the
parseURL call of detectUrlType, the parseURL call of fetchFeedContent, the
fetch of fetchSingleContent, the resolved api key, and the chat completion
(whose message content is nullable). -/
structure ExtEnv where
  parseFeed1 : Except String (List RawFeedItem) := Except.error "fetch failed"
  parseFeed2 : Except String (List RawFeedItem) := Except.error "fetch failed"
  fetchSingle : Except String SinglePage := Except.error "fetch failed"
  apiKey : Option String := none
  llm : Except String (Option String) := Except.error "model call failed"

-- ===========================================================================
-- Extraction layer (src/index.ts lines 83-128)
-- ===========================================================================

/-- detectUrlType: feed when parseURL resolves, single on any rejection. -/
def detectUrlType (ext : ExtEnv) : InspirationType :=
  match ext.parseFeed1 with
  | Except.ok _ => InspirationType.feed
  | Except.error _ => InspirationType.single

/-- A mapped feed entry. -/
structure FeedItem where
  title : String
  content : String
  link : String
  deriving DecidableEq, Repr

/-- fetchFeedContent: parse the feed again and map each item with the
falsy-coalescing defaults of the source. -/
def fetchFeedContent (url : String) (ext : ExtEnv) :
    Except String (List FeedItem) :=
  match ext.parseFeed2 with
  | Except.error e => Except.error e
  | Except.ok items =>
    Except.ok (items.map (fun item =>
      { title := jsOrString item.title "Untitled",
        content := jsOrString item.contentSnippet
          (jsOrString item.content (jsOrString item.summary "")),
        link := jsOrString item.link url }))

/-- getOpenAI: throws when the resolved api key is absent or falsy. -/
def getOpenAI (ext : ExtEnv) : Except String Unit :=
  match ext.apiKey with
  | none => Except.error "OPENAI_API_KEY not configured"
  | some k => if k = "" then Except.error "OPENAI_API_KEY not configured"
              else Except.ok ()

-- ===========================================================================
-- Action handlers (src/index.ts lines 198-588)
-- ===========================================================================

/-- The ContentPiece written for one feed item. -/
def feedPiece (item : FeedItem) (tags : List String) (id : String) (t : Nat) :
    ContentPiece :=
  { id := id, title := item.title, source := item.link,
    content := item.content, summary := none, tags := tags, addedAt := t,
    inspirationType := InspirationType.feed }

/-- The ContentPiece written for a single page. -/
def singlePiece (url : String) (page : SinglePage) (tags : List String)
    (id : String) (t : Nat) : ContentPiece :=
  { id := id, title := page.title, source := url,
    content := page.content, summary := none, tags := tags, addedAt := t,
    inspirationType := InspirationType.single }

/-- The body of the for loop of the feed branch of addInspiration: one
setContent per item, with a fresh id and clock reading each, stopping at the
first rejection. -/
def writeFeedPieces (items : List FeedItem) (tags : List String) (s : Sys) :
    Except String Unit × Sys :=
  match items with
  | [] => (Except.ok (), s)
  | item :: rest =>
    let (id, s1) := genId s
    let (t, s2) := nowTime s1
    match setContent (feedPiece item tags id t) s2 with
    | (Except.error e, s3) => (Except.error e, s3)
    | (Except.ok _, s3) => writeFeedPieces rest tags s3

/-- The success envelope of the feed branch of addInspiration. -/
def feedSuccessEnvelope (count : Nat) : ActionResult :=
  templateResult [("template", JValue.str "success"), ("type", JValue.str "feed"),
                  ("contentCount", JValue.num count)]

/-- The success envelope of the single branch of addInspiration. -/
def singleSuccessEnvelope : ActionResult :=
  templateResult [("template", JValue.str "success"),
                  ("type", JValue.str "single"), ("contentCount", JValue.num 1)]

/-- The catch-clause envelope of addInspiration. -/
def inspirationErrorEnvelope : ActionResult :=
  templateResult [("template", JValue.str "error"), ("type", JValue.str "single"),
                  ("contentCount", JValue.num 0)]

/-- The try block of addInspiration. -/
def addInspirationBody (input : ActionInput) (ext : ExtEnv) (s : Sys) :
    Except String ActionResult × Sys :=
  let url := input.url
  let tags := input.tags.getD []
  match detectUrlType ext with
  | InspirationType.feed =>
    match fetchFeedContent url ext with
    | Except.error e => (Except.error e, s)
    | Except.ok items =>
      match writeFeedPieces items tags s with
      | (Except.error e, s1) => (Except.error e, s1)
      | (Except.ok _, s1) => (Except.ok (feedSuccessEnvelope items.length), s1)
  | InspirationType.single =>
    match ext.fetchSingle with
    | Except.error e => (Except.error e, s)
    | Except.ok page =>
      let (id, s1) := genId s
      let (t, s2) := nowTime s1
      match setContent (singlePiece url page tags id t) s2 with
      | (Except.error e, s3) => (Except.error e, s3)
      | (Except.ok _, s3) => (Except.ok singleSuccessEnvelope, s3)

/-- addInspiration: the try block with its catch, which converts any thrown
error into the fixed zero-count error envelope. -/
def addInspiration (input : ActionInput) (ext : ExtEnv) (s : Sys) :
    ActionResult × Sys :=
  match addInspirationBody input ext s with
  | (Except.ok r, s1) => (r, s1)
  | (Except.error _, s1) => (inspirationErrorEnvelope, s1)

/-- The descending addedAt ordering of the listContent sort: the comparator
new Date(b.addedAt) - new Date(a.addedAt) accepts a before b exactly when
b.addedAt ≤ a.addedAt.  The sort itself is modelled by the stable
List.insertionSort, matching the stable comparator sort of the runtime. -/
def contentDescOrder (a b : ContentPiece) : Prop := b.addedAt ≤ a.addedAt

instance : DecidableRel contentDescOrder :=
  fun a b => Nat.decLe b.addedAt a.addedAt

instance : IsTotal ContentPiece contentDescOrder :=
  ⟨fun a b => Nat.le_total b.addedAt a.addedAt⟩

instance : IsTrans ContentPiece contentDescOrder :=
  ⟨fun _ _ _ h1 h2 => Nat.le_trans h2 h1⟩

/-- The summarized item shape of the listContent page. -/
def summarizeContent (c : ContentPiece) : JValue :=
  JValue.obj [("id", JValue.str c.id), ("title", JValue.str c.title),
              ("source", JValue.str c.source),
              ("tags", JValue.arr (c.tags.map JValue.str)),
              ("addedAt", JValue.num c.addedAt)]

/-- The empty-collection envelope shared by the two list actions. -/
def emptyListEnvelope : ActionResult :=
  templateResult [("template", JValue.str "empty"), ("totalCount", JValue.num 0),
                  ("returnedCount", JValue.num 0)]

/-- listContent: empty-index short circuit, load with drift tolerance, tag
filter, sort by addedAt descending, then offset/limit slice. -/
def listContent (input : ActionInput) (s : Sys) :
    Except String ActionResult × Sys :=
  let filterTags := input.tags.getD []
  let limit := jsOrNat input.limit 20
  let offset := jsOrNat input.offset 0
  match getContentIndex s.store with
  | Except.error e => (Except.error e, s)
  | Except.ok index =>
    if index.length = 0 then (Except.ok emptyListEnvelope, s)
    else
      let allContent := index.filterMap (fun id => getContent s.store id)
      let filtered := if filterTags.length > 0 then
          allContent.filter (fun item =>
            filterTags.any (fun tag => item.tags.contains tag))
        else allContent
      let sorted := List.insertionSort contentDescOrder filtered
      let total := sorted.length
      let paginated := (sorted.drop offset).take limit
      (Except.ok (templateResult
        [("template", JValue.str "success"), ("totalCount", JValue.num total),
         ("returnedCount", JValue.num paginated.length),
         ("items", JValue.arr (paginated.map summarizeContent))]), s)

/-- The formatted body returned by the getContent action. -/
def formatContentBlock (c : ContentPiece) : String :=
  "# " ++ c.title ++ "\n\n**Source:** " ++ c.source ++ "\n**Tags:** " ++
    jsOrString (some (String.intercalate ", " c.tags)) "none" ++
    "\n**Added:** " ++ toString c.addedAt ++ "\n\n---\n\n" ++ c.content

/-- getContentAction: direct lookup, passthrough error when absent, formatted
passthrough content when found. -/
def getContentAction (input : ActionInput) (s : Sys) :
    Except String ActionResult × Sys :=
  match getContent s.store input.contentId with
  | none => (Except.ok (passthroughError "Content not found"), s)
  | some c =>
    (Except.ok (passthroughResult
      [("contentType", JValue.str "content"),
       ("content", JValue.str (formatContentBlock c)),
       ("metadata", JValue.obj
         [("title", JValue.str c.title), ("source", JValue.str c.source),
          ("tags", JValue.arr (c.tags.map JValue.str)),
          ("addedAt", JValue.num c.addedAt)])]), s)

/-- The source block a resolved content piece contributes to a prompt. -/
def sourceBlock (c : ContentPiece) : String :=
  "## " ++ c.title ++ "\nSource: " ++ c.source ++ "\n\n" ++ c.content

/-- The capture taken from the first line, scanning onward, that holds a
non-whitespace character: the tail of that line from its first
non-whitespace character, which is where the greedy whitespace run of the
heading pattern stops. -/
def firstContentLine : List String → Option String
  | [] => none
  | l :: ls =>
    let w := l.takeWhile Char.isWhitespace
    if w.length < l.length then some (l.drop w.length)
    else firstContentLine ls

/-- The last non-empty segment of a list of newline-free segments. -/
def lastNonemptySeg : List String → Option String
  | [] => none
  | seg :: rest =>
    match lastNonemptySeg rest with
    | some r => some r
    | none => if 0 < seg.length then some seg else none

/-- The first match of the heading regular expression of the source (start
of line, hash, one or more whitespace characters, then a captured run of one
or more non-newline characters reaching the end of a line).  The whitespace
run may cross newlines, so the capture can come from a later line than the
hash; when everything after the hash is whitespace, greedy backtracking
captures the last character that is not a newline, provided at least one
whitespace character precedes it.  Carriage returns and non-ASCII whitespace
are not modelled. -/
def extractH1Lines : List String → Option String
  | [] => none
  | l :: ls =>
    if l.startsWith "#" then
      let rest := l.drop 1
      let w := rest.takeWhile Char.isWhitespace
      if w.length = 0 ∧ 0 < rest.length then extractH1Lines ls
      else if w.length < rest.length then some (rest.drop w.length)
      else
        match firstContentLine ls with
        | some cap => some cap
        | none =>
          match lastNonemptySeg ls with
          | some seg => some (seg.drop (seg.length - 1))
          | none =>
            if 2 ≤ rest.length then some (rest.drop (rest.length - 1))
            else none
    else extractH1Lines ls

/-- The heading match over the newline-split model output. -/
def extractH1 (text : String) : Option String :=
  extractH1Lines (text.splitOn "\n")

/-- createArticle: resolve the ids (skipping misses), fail early when nothing
resolves, call the model, then persist one article at version 1 whose
sourceContentIds are the input ids verbatim. -/
def createArticle (input : ActionInput) (ext : ExtEnv) (s : Sys) :
    Except String ActionResult × Sys :=
  let contentIds := input.contentIds
  let sourceContent := contentIds.filterMap
    (fun id => (getContent s.store id).map sourceBlock)
  if sourceContent.length = 0 then
    (Except.ok (passthroughError "No valid content pieces found"), s)
  else
    match getOpenAI ext with
    | Except.error e => (Except.error e, s)
    | Except.ok _ =>
      match ext.llm with
      | Except.error e => (Except.error e, s)
      | Except.ok response =>
        let generatedContent := response.getD ""
        let articleTitle := jsOrString input.title
          (jsOrString (extractH1 generatedContent) "Untitled Article")
        let (articleId, s1) := genId s
        let (t1, s2) := nowTime s1
        let (t2, s3) := nowTime s2
        let article : Article :=
          { id := articleId, title := articleTitle, content := generatedContent,
            sourceContentIds := contentIds, instructions := input.instructions,
            version := 1, createdAt := t1, updatedAt := t2 }
        match setArticle article s3 with
        | (Except.error e, s4) => (Except.error e, s4)
        | (Except.ok _, s4) =>
          (Except.ok (passthroughResult
            [("contentType", JValue.str "article"),
             ("content", JValue.str ("# " ++ articleTitle ++ "\n\n" ++
               generatedContent)),
             ("metadata", JValue.obj
               [("articleId", JValue.str articleId),
                ("title", JValue.str articleTitle)])]), s4)

/-- The article createArticle persists: the fresh generated id, the title
priority chain (input title, else the first markdown heading of the model
output, else "Untitled Article"), the model output as content, the input
contentIds verbatim, version 1, and the two consecutive clock readings. -/
def createdArticle (input : ActionInput) (s : Sys) (resp : Option String) :
    Article :=
  { id := (genId s).1,
    title := jsOrString input.title
      (jsOrString (extractH1 (resp.getD "")) "Untitled Article"),
    content := resp.getD "",
    sourceContentIds := input.contentIds,
    instructions := input.instructions,
    version := 1,
    createdAt := (nowTime (genId s).2).1,
    updatedAt := (nowTime (nowTime (genId s).2).2).1 }

/-- The descending updatedAt ordering of the listArticles sort. -/
def articleDescOrder (a b : Article) : Prop := b.updatedAt ≤ a.updatedAt

instance : DecidableRel articleDescOrder :=
  fun a b => Nat.decLe b.updatedAt a.updatedAt

instance : IsTotal Article articleDescOrder :=
  ⟨fun a b => Nat.le_total b.updatedAt a.updatedAt⟩

instance : IsTrans Article articleDescOrder :=
  ⟨fun _ _ _ h1 h2 => Nat.le_trans h2 h1⟩

/-- The summarized item shape of the listArticles page. -/
def summarizeArticle (a : Article) : JValue :=
  JValue.obj [("id", JValue.str a.id), ("title", JValue.str a.title),
              ("version", JValue.num a.version),
              ("createdAt", JValue.num a.createdAt),
              ("updatedAt", JValue.num a.updatedAt)]

/-- listArticles: the same empty/load/sort/paginate shape as listContent,
without a tag filter, sorted by updatedAt descending. -/
def listArticles (input : ActionInput) (s : Sys) :
    Except String ActionResult × Sys :=
  let limit := jsOrNat input.limit 20
  let offset := jsOrNat input.offset 0
  match getArticleIndex s.store with
  | Except.error e => (Except.error e, s)
  | Except.ok index =>
    if index.length = 0 then (Except.ok emptyListEnvelope, s)
    else
      let allArticles := index.filterMap (fun id => getArticle s.store id)
      let sorted := List.insertionSort articleDescOrder allArticles
      let total := sorted.length
      let paginated := (sorted.drop offset).take limit
      (Except.ok (templateResult
        [("template", JValue.str "success"), ("totalCount", JValue.num total),
         ("returnedCount", JValue.num paginated.length),
         ("items", JValue.arr (paginated.map summarizeArticle))]), s)

/-- Spread of a JavaScript Set built from a list: insertion-order
deduplication keeping first occurrences. -/
def setDedup (l : List String) : List String :=
  l.foldl (fun acc x => if x ∈ acc then acc else acc ++ [x]) []

/-- updateArticle: not-found passthrough error; otherwise call the model,
replace content (keeping the old body when the response is empty or missing),
bump version, refresh updatedAt, union in any supplied additional ids, and
persist. -/
def updateArticle (input : ActionInput) (ext : ExtEnv) (s : Sys) :
    Except String ActionResult × Sys :=
  let additionalContentIds := input.additionalContentIds.getD []
  match getArticle s.store input.articleId with
  | none => (Except.ok (passthroughError "Article not found"), s)
  | some article =>
    match getOpenAI ext with
    | Except.error e => (Except.error e, s)
    | Except.ok _ =>
      match ext.llm with
      | Except.error e => (Except.error e, s)
      | Except.ok response =>
        let updatedContent := jsOrString response article.content
        let (t, s1) := nowTime s
        let article2 : Article :=
          { article with content := updatedContent,
                         version := article.version + 1,
                         updatedAt := t,
                         sourceContentIds :=
                           if additionalContentIds.length > 0 then
                             setDedup (article.sourceContentIds ++
                               additionalContentIds)
                           else article.sourceContentIds }
        match setArticle article2 s1 with
        | (Except.error e, s2) => (Except.error e, s2)
        | (Except.ok _, s2) =>
          (Except.ok (passthroughResult
            [("contentType", JValue.str "article"),
             ("content", JValue.str ("# " ++ article.title ++ "\n\n" ++
               updatedContent)),
             ("metadata", JValue.obj
               [("articleId", JValue.str article.id),
                ("title", JValue.str article.title),
                ("version", JValue.num article2.version)])]), s2)

/-- The revised article updateArticle persists: content replaced (kept when
the model response is empty or missing), version bumped by one, updatedAt
refreshed, and the additional ids unioned in exactly when supplied
non-empty. -/
def updatedArticle (article : Article) (input : ActionInput)
    (resp : Option String) (t : Nat) : Article :=
  { article with
    content := jsOrString resp article.content,
    version := article.version + 1,
    updatedAt := t,
    sourceContentIds :=
      if (input.additionalContentIds.getD []).length > 0 then
        setDedup (article.sourceContentIds ++
          input.additionalContentIds.getD [])
      else article.sourceContentIds }

/-- The success envelope of deleteContent. -/
def deleteSuccessEnvelope : ActionResult :=
  templateResult [("template", JValue.str "success")]

/-- The notFound envelope of deleteContent. -/
def deleteNotFoundEnvelope : ActionResult :=
  templateResult [("template", JValue.str "notFound")]

/-- deleteContent: delete through the repository and report notFound when
nothing was removed. -/
def deleteContent (input : ActionInput) (s : Sys) :
    Except String ActionResult × Sys :=
  match deleteContentById input.contentId s with
  | (Except.error e, s1) => (Except.error e, s1)
  | (Except.ok deleted, s1) =>
    if deleted then (Except.ok deleteSuccessEnvelope, s1)
    else (Except.ok deleteNotFoundEnvelope, s1)

-- ===========================================================================
-- Dispatcher (src/index.ts lines 601-650)
-- ===========================================================================

/-- The seven known action names of the switch. -/
def knownActions : List String :=
  ["addInspiration", "listContent", "getContent", "createArticle",
   "listArticles", "updateArticle", "deleteContent"]

/-- The template error envelope the dispatcher builds from a message. -/
def dispatchErrorEnvelope (message : String) : ActionResult :=
  templateResult [("template", JValue.str "error"),
                  ("message", JValue.str message)]

/-- The switch statement inside the try block of invoke. -/
def dispatch (action : String) (input : ActionInput) (ext : ExtEnv) (s : Sys) :
    Except String ActionResult × Sys :=
  if action = "addInspiration" then
    let (r, s1) := addInspiration input ext s
    (Except.ok r, s1)
  else if action = "listContent" then listContent input s
  else if action = "getContent" then getContentAction input s
  else if action = "createArticle" then createArticle input ext s
  else if action = "listArticles" then listArticles input s
  else if action = "updateArticle" then updateArticle input ext s
  else if action = "deleteContent" then deleteContent input s
  else (Except.ok (dispatchErrorEnvelope ("Unknown action: " ++ action)), s)

/-- ContentHoarderTrik.invoke: storage guard, dispatch, and the catch that
normalizes any thrown error into a template error envelope carrying its
message. -/
def invoke (action : String) (input : ActionInput) (ext : ExtEnv)
    (storage : Option Sys) : ActionResult × Option Sys :=
  match storage with
  | none => (dispatchErrorEnvelope "Storage not provided", none)
  | some s =>
    match dispatch action input ext s with
    | (Except.ok r, s1) => (r, some s1)
    | (Except.error e, s1) => (dispatchErrorEnvelope e, some s1)

-- ===========================================================================
-- Derived observation predicates
-- ===========================================================================

/-- Every content record is stored under the key of its own id.  Every state
the handlers produce satisfies this, since setContent keys a record by its id
field. -/
def idCoherent (st : Storage) : Prop :=
  ∀ i c, getContent st i = some c → c.id = i

/-- The content pieces an enumeration pass (as in listContent) resolves from
the index, skipping ids whose lookup fails. -/
def listedPieces (st : Storage) : List ContentPiece :=
  match getContentIndex st with
  | Except.ok ids => ids.filterMap (fun i => getContent st i)
  | Except.error _ => []

/-- The specification-side filter of listContent: when a non-empty tags
filter is given, keep exactly the pieces sharing at least one tag with it
(logical OR, stated with membership). -/
def specFiltered (input : ActionInput) (s : Sys) (index : List String) :
    List ContentPiece :=
  let allContent := index.filterMap (fun id => getContent s.store id)
  if (input.tags.getD []).length > 0 then
    allContent.filter (fun c => decide (∃ t ∈ input.tags.getD [], t ∈ c.tags))
  else allContent

/-- The field names of a summarized object. -/
def objFieldNames : JValue → List String
  | JValue.obj fields => fields.map Prod.fst
  | _ => []

-- ===========================================================================
-- Concrete states and records used as witnesses and counterexamples
-- ===========================================================================

/-- The empty store. -/
def emptyStorage : Storage := fun _ => none

/-- A system over the empty store with no oracle events. -/
def emptySys : Sys :=
  { store := emptyStorage, idSeq := [], timeSeq := [], setOutcomes := [] }

/-- A sample stored content piece with id "a". -/
def samplePiece : ContentPiece :=
  { id := "a", title := "Alpha", source := "srcA", content := "bodyA",
    summary := none, tags := ["x"], addedAt := 5,
    inspirationType := InspirationType.single }

/-- A second content piece with id "b". -/
def pieceB : ContentPiece :=
  { id := "b", title := "Beta", source := "srcB", content := "bodyB",
    summary := none, tags := ["y"], addedAt := 9,
    inspirationType := InspirationType.single }

/-- A store holding exactly samplePiece, with a consistent index. -/
def storeOneRecord : Storage := fun k =>
  if k = "content:index" then some (StorageValue.index ["a"])
  else if k = "content:a" then some (StorageValue.content samplePiece)
  else none

/-- A system over storeOneRecord with no pending oracle events. -/
def sysOneRecord : Sys :=
  { store := storeOneRecord, idSeq := [], timeSeq := [], setOutcomes := [] }

/-- A store holding samplePiece and pieceB, with a consistent index. -/
def storeTwoRecords : Storage := fun k =>
  if k = "content:index" then some (StorageValue.index ["a", "b"])
  else if k = "content:a" then some (StorageValue.content samplePiece)
  else if k = "content:b" then some (StorageValue.content pieceB)
  else none

/-- A system over storeTwoRecords with a fresh id and two clock readings
pending. -/
def sysTwoRecords : Sys :=
  { store := storeTwoRecords, idSeq := ["art9"], timeSeq := [70, 71],
    setOutcomes := [] }

/-- A store holding an empty content index and no records. -/
def storeEmptyIndex : Storage := fun k =>
  if k = "content:index" then some (StorageValue.index []) else none

/-- A system over storeEmptyIndex. -/
def sysEmptyIndex : Sys :=
  { store := storeEmptyIndex, idSeq := [], timeSeq := [], setOutcomes := [] }

/-- A sample stored article. -/
def sampleArticle : Article :=
  { id := "art1", title := "Art", content := "old body",
    sourceContentIds := ["c0", "c1"], instructions := "keep it short",
    version := 3, createdAt := 10, updatedAt := 20 }

/-- A store holding exactly sampleArticle, with a consistent article index. -/
def storeArticleOne : Storage := fun k =>
  if k = "article:index" then some (StorageValue.index ["art1"])
  else if k = "article:art1" then some (StorageValue.article sampleArticle)
  else none

/-- A system over storeArticleOne with one clock reading pending. -/
def sysArticleOne : Sys :=
  { store := storeArticleOne, idSeq := [], timeSeq := [100], setOutcomes := [] }

/-- A raw feed item with title, snippet and link present. -/
def rawItemA : RawFeedItem :=
  { title := some "A", contentSnippet := some "c1", link := some "l1" }

/-- A raw feed item with every field absent. -/
def rawItemB : RawFeedItem := {}

/-- External outcomes for a feed ingestion: both parses resolve, the second
with two items. -/
def extFeedW : ExtEnv :=
  { parseFeed1 := Except.ok [], parseFeed2 := Except.ok [rawItemA, rawItemB] }

/-- A system with two fresh feed ids and two clock readings pending. -/
def sysFeedW : Sys :=
  { store := emptyStorage, idSeq := ["f1", "f2"], timeSeq := [1, 2],
    setOutcomes := [] }

/-- Like sysFeedW, but the third storage.set call (the record write of the
second piece, after the first piece wrote its record and index entry)
rejects. -/
def sysFeedFailW : Sys :=
  { store := emptyStorage, idSeq := ["f1", "f2"], timeSeq := [1, 2],
    setOutcomes := [none, none, some "disk full"] }

-- ===========================================================================
-- The index/record consistency invariant
-- ===========================================================================

/-- The content index reads back as an id list containing exactly the ids of
content records retrievable by direct key lookup. -/
def contentConsistent (st : Storage) : Prop :=
  ∃ ids, getContentIndex st = Except.ok ids ∧
    ∀ id, id ∈ ids ↔ (getContent st id).isSome

/-- The article index reads back as an id list containing exactly the ids of
article records retrievable by direct key lookup. -/
def articleConsistent (st : Storage) : Prop :=
  ∃ ids, getArticleIndex st = Except.ok ids ∧
    ∀ id, id ∈ ids ↔ (getArticle st id).isSome

-- ===========================================================================
-- Key arithmetic
-- ===========================================================================

/-- Appending to a fixed prefix is injective on strings. -/
theorem string_append_left_cancel {p a b : String} (h : p ++ a = p ++ b) :
    a = b := by
  apply String.ext
  have hd := congrArg String.data h
  rw [String.data_append, String.data_append] at hd
  exact List.append_cancel_left hd

/-- Content keys are injective in the id. -/
theorem contentKey_inj {a b : String} (h : contentKey a = contentKey b) :
    a = b :=
  string_append_left_cancel h

/-- Article keys are injective in the id. -/
theorem articleKey_inj {a b : String} (h : articleKey a = articleKey b) :
    a = b :=
  string_append_left_cancel h

/-- The only id whose content key is the content index key is "index". -/
theorem contentKey_eq_indexKey_iff {a : String} :
    contentKey a = contentIndexKey ↔ a = "index" := by
  constructor
  · intro h
    have : contentKey a = contentKey "index" := by
      rw [h]; decide
    exact contentKey_inj this
  · intro h; rw [h]; decide

/-- The only id whose article key is the article index key is "index". -/
theorem articleKey_eq_indexKey_iff {a : String} :
    articleKey a = articleIndexKey ↔ a = "index" := by
  constructor
  · intro h
    have : articleKey a = articleKey "index" := by
      rw [h]; decide
    exact articleKey_inj this
  · intro h; rw [h]; decide

/-- A content key never equals an article key. -/
theorem contentKey_ne_articleKey (a b : String) : contentKey a ≠ articleKey b := by
  intro h
  have hd := congrArg String.data h
  rw [contentKey, articleKey, String.data_append, String.data_append] at hd
  have h1 : ("content:" : String).data = 'c' :: "ontent:".data := rfl
  have h2 : ("article:" : String).data = 'a' :: "rticle:".data := rfl
  rw [h1, h2] at hd
  simp at hd

/-- A content key never equals the article index key. -/
theorem contentKey_ne_articleIndexKey (a : String) :
    contentKey a ≠ articleIndexKey := by
  intro h
  have : contentKey a = articleKey "index" := by
    rw [h]; decide
  exact contentKey_ne_articleKey a "index" this

/-- An article key never equals the content index key. -/
theorem articleKey_ne_contentIndexKey (a : String) :
    articleKey a ≠ contentIndexKey := by
  intro h
  have hx : contentIndexKey = contentKey "index" := by decide
  rw [hx] at h
  exact contentKey_ne_articleKey "index" a h.symm

-- ===========================================================================
-- Pointwise store lemmas
-- ===========================================================================

theorem getContent_setKey_content (st : Storage) (c : ContentPiece)
    (id : String) :
    getContent (st.setKey (contentKey c.id) (StorageValue.content c)) id
      = if id = c.id then some c else getContent st id := by
  unfold getContent Storage.setKey
  rcases eq_or_ne id c.id with h | h
  · simp [h]
  · have : contentKey id ≠ contentKey c.id := fun hk => h (contentKey_inj hk)
    simp [h, this]

theorem getContent_setKey_index (st : Storage) (ids : List String)
    (id : String) :
    getContent (st.setKey contentIndexKey (StorageValue.index ids)) id
      = if id = "index" then none else getContent st id := by
  unfold getContent Storage.setKey
  rcases eq_or_ne id "index" with h | h
  · subst h
    have : contentKey "index" = contentIndexKey := by decide
    simp [this]
  · have : contentKey id ≠ contentIndexKey :=
      fun hk => h (contentKey_eq_indexKey_iff.mp hk)
    simp [this, h]

theorem getContent_delKey (st : Storage) (key id : String) :
    getContent (st.delKey key) id
      = if contentKey id = key then none else getContent st id := by
  unfold getContent Storage.delKey
  rcases eq_or_ne (contentKey id) key with h | h
  · simp [h]
  · simp [h]

theorem getContentIndex_setKey_content (st : Storage) (c : ContentPiece)
    (h : c.id ≠ "index") :
    getContentIndex (st.setKey (contentKey c.id) (StorageValue.content c))
      = getContentIndex st := by
  unfold getContentIndex Storage.setKey
  have : contentIndexKey ≠ contentKey c.id :=
    fun hk => h (contentKey_eq_indexKey_iff.mp hk.symm)
  simp [this]

theorem getContentIndex_setKey_index (st : Storage) (ids : List String) :
    getContentIndex (st.setKey contentIndexKey (StorageValue.index ids))
      = Except.ok ids := by
  unfold getContentIndex Storage.setKey
  simp

theorem getArticle_setKey_article (st : Storage) (a : Article) (id : String) :
    getArticle (st.setKey (articleKey a.id) (StorageValue.article a)) id
      = if id = a.id then some a else getArticle st id := by
  unfold getArticle Storage.setKey
  rcases eq_or_ne id a.id with h | h
  · simp [h]
  · have : articleKey id ≠ articleKey a.id := fun hk => h (articleKey_inj hk)
    simp [h, this]

theorem getArticle_setKey_index (st : Storage) (ids : List String)
    (id : String) :
    getArticle (st.setKey articleIndexKey (StorageValue.index ids)) id
      = if id = "index" then none else getArticle st id := by
  unfold getArticle Storage.setKey
  rcases eq_or_ne id "index" with h | h
  · subst h
    have : articleKey "index" = articleIndexKey := by decide
    simp [this]
  · have : articleKey id ≠ articleIndexKey :=
      fun hk => h (articleKey_eq_indexKey_iff.mp hk)
    simp [this, h]

theorem getArticleIndex_setKey_article (st : Storage) (a : Article)
    (h : a.id ≠ "index") :
    getArticleIndex (st.setKey (articleKey a.id) (StorageValue.article a))
      = getArticleIndex st := by
  unfold getArticleIndex Storage.setKey
  have : articleIndexKey ≠ articleKey a.id :=
    fun hk => h (articleKey_eq_indexKey_iff.mp hk.symm)
  simp [this]

theorem getArticleIndex_setKey_index (st : Storage) (ids : List String) :
    getArticleIndex (st.setKey articleIndexKey (StorageValue.index ids))
      = Except.ok ids := by
  unfold getArticleIndex Storage.setKey
  simp

theorem getArticle_setKey_contentKey (st : Storage) (key : String)
    (v : StorageValue) (id : String) (h : articleKey id ≠ key) :
    getArticle (st.setKey key v) id = getArticle st id := by
  unfold getArticle Storage.setKey
  simp [h]

theorem getArticleIndex_setKey_other (st : Storage) (key : String)
    (v : StorageValue) (h : articleIndexKey ≠ key) :
    getArticleIndex (st.setKey key v) = getArticleIndex st := by
  unfold getArticleIndex Storage.setKey
  simp [h]

theorem getArticle_delKey_contentKey (st : Storage) (key : String)
    (id : String) (h : articleKey id ≠ key) :
    getArticle (st.delKey key) id = getArticle st id := by
  unfold getArticle Storage.delKey
  simp [h]

theorem getArticleIndex_delKey_other (st : Storage) (key : String)
    (h : articleIndexKey ≠ key) :
    getArticleIndex (st.delKey key) = getArticleIndex st := by
  unfold getArticleIndex Storage.delKey
  simp [h]

theorem getContentIndex_delKey_other (st : Storage) (key : String)
    (h : contentIndexKey ≠ key) :
    getContentIndex (st.delKey key) = getContentIndex st := by
  unfold getContentIndex Storage.delKey
  simp [h]

-- ===========================================================================
-- Run lemmas for the primitive operations
-- ===========================================================================

/-- A resolved storage.set call applied the write and left the oracle id and
clock streams alone. -/
theorem storageSet_ok {key : String} {v : StorageValue} {s s1 : Sys}
    (h : storageSet key v s = (Except.ok (), s1)) :
    s1.store = s.store.setKey key v ∧ s1.idSeq = s.idSeq ∧
      s1.timeSeq = s.timeSeq := by
  unfold storageSet at h
  split at h
  · cases h; exact ⟨rfl, rfl, rfl⟩
  · cases h; exact ⟨rfl, rfl, rfl⟩
  · simp at h

/-- The state returned by storageDelete. -/
theorem storageDelete_eq (key : String) (s : Sys) :
    storageDelete key s
      = ((s.store key).isSome, { s with store := s.store.delKey key }) := rfl

/-- When the index reads back as a list, no content record sits at the id
"index": its record key is the index key itself. -/
theorem getContent_at_index_none {st : Storage} {ids : List String}
    (h : getContentIndex st = Except.ok ids) :
    getContent st "index" = none := by
  unfold getContentIndex at h
  unfold getContent
  have hk : contentKey "index" = contentIndexKey := by decide
  rw [hk]
  rcases hv : st contentIndexKey with _ | v
  · rfl
  · rw [hv] at h
    rcases v with c | a | l
    · simp at h
    · simp at h
    · rfl

/-- When the article index reads back as a list, no article record sits at
the id "index". -/
theorem getArticle_at_index_none {st : Storage} {ids : List String}
    (h : getArticleIndex st = Except.ok ids) :
    getArticle st "index" = none := by
  unfold getArticleIndex at h
  unfold getArticle
  have hk : articleKey "index" = articleIndexKey := by decide
  rw [hk]
  rcases hv : st articleIndexKey with _ | v
  · rfl
  · rw [hv] at h
    rcases v with c | a | l
    · simp at h
    · simp at h
    · rfl

/-- A completed setContent preserves content index/record consistency. -/
theorem setContent_preserves_consistent {c : ContentPiece} {s s1 : Sys}
    (hc : contentConsistent s.store)
    (h : setContent c s = (Except.ok (), s1)) :
    contentConsistent s1.store := by
  obtain ⟨ids, hids, hmem⟩ := hc
  unfold setContent at h
  rcases h1 : storageSet (contentKey c.id) (StorageValue.content c) s
    with ⟨res1, sA⟩
  rw [h1] at h
  rcases res1 with e | u
  · simp at h
  obtain ⟨hstA, _, _⟩ := storageSet_ok h1
  simp only at h
  rcases eq_or_ne c.id "index" with hix | hix
  · have hkey : contentKey c.id = contentIndexKey := by
      rw [hix]; decide
    have hbad : getContentIndex sA.store
        = Except.error "TypeError: content index is not an array" := by
      rw [hstA]
      unfold getContentIndex Storage.setKey
      simp [hkey]
    rw [hbad] at h
    simp at h
  · have hread : getContentIndex sA.store = Except.ok ids := by
      rw [hstA, getContentIndex_setKey_content _ _ hix, hids]
    rw [hread] at h
    simp only at h
    by_cases hin : c.id ∈ ids
    · simp only [if_pos hin] at h
      cases h
      refine ⟨ids, hread, fun id => ?_⟩
      rw [hstA, getContent_setKey_content]
      rcases eq_or_ne id c.id with hid | hid
      · simp [hid, hin]
      · simp only [if_neg hid]
        exact hmem id
    · simp only [if_neg hin] at h
      obtain ⟨hstB, _, _⟩ := storageSet_ok h
      refine ⟨ids ++ [c.id], ?_, fun id => ?_⟩
      · rw [hstB, getContentIndex_setKey_index]
      · rw [hstB, getContent_setKey_index]
        rcases eq_or_ne id "index" with hid | hid
        · subst hid
          have h0 : getContent s.store "index" = none :=
            getContent_at_index_none hids
          have h1m := hmem "index"
          rw [h0] at h1m
          simp only [if_pos rfl]
          simp [List.mem_append, h1m, Ne.symm hix]
        · simp only [if_neg hid]
          rw [hstA, getContent_setKey_content]
          rcases eq_or_ne id c.id with hid2 | hid2
          · simp [hid2]
          · simp only [if_neg hid2, List.mem_append, List.mem_singleton, hid2,
              or_false]
            exact hmem id

/-- A completed deleteContentById of an id other than the literal "index"
preserves content index/record consistency. -/
theorem deleteContentById_preserves_consistent {id : String} {s s1 : Sys}
    {b : Bool} (hix : id ≠ "index") (hc : contentConsistent s.store)
    (h : deleteContentById id s = (Except.ok b, s1)) :
    contentConsistent s1.store := by
  obtain ⟨ids, hids, hmem⟩ := hc
  unfold deleteContentById at h
  rw [storageDelete_eq] at h
  have hkeyne : contentIndexKey ≠ contentKey id :=
    fun hk => hix (contentKey_eq_indexKey_iff.mp hk.symm)
  rcases hex : (s.store (contentKey id)).isSome with hfals | htru
  · rw [hex] at h
    simp only at h
    cases h
    have hnone : s.store (contentKey id) = none := by
      rcases hv : s.store (contentKey id) with _ | v
      · rfl
      · rw [hv] at hex; simp at hex
    refine ⟨ids, ?_, fun id2 => ?_⟩
    · simp only
      rw [getContentIndex_delKey_other _ _ hkeyne, hids]
    · simp only
      rw [getContent_delKey]
      rcases eq_or_ne (contentKey id2) (contentKey id) with hk | hk
      · have hid2 : id2 = id := contentKey_inj hk
        subst hid2
        simp only [if_pos hk]
        have : getContent s.store id2 = none := by
          unfold getContent
          rw [hnone]
        have hm := hmem id2
        rw [this] at hm
        simpa using hm
      · simp only [if_neg hk]
        exact hmem id2
  · rw [hex] at h
    simp only at h
    have hreadA : getContentIndex (s.store.delKey (contentKey id))
        = Except.ok ids := by
      rw [getContentIndex_delKey_other _ _ hkeyne, hids]
    rw [hreadA] at h
    simp only at h
    rcases h2 : storageSet contentIndexKey
        (StorageValue.index (ids.filter (fun i => i ≠ id)))
        { s with store := s.store.delKey (contentKey id) } with ⟨res2, sB⟩
    rw [h2] at h
    rcases res2 with e | u
    · simp at h
    · simp only at h
      cases h
      obtain ⟨hstB, _, _⟩ := storageSet_ok h2
      refine ⟨ids.filter (fun i => i ≠ id), ?_, fun id2 => ?_⟩
      · rw [hstB]
        simp only
        rw [getContentIndex_setKey_index]
      · rw [hstB]
        simp only
        rw [getContent_setKey_index]
        rcases eq_or_ne id2 "index" with hid | hid
        · subst hid
          have h0 : getContent s.store "index" = none :=
            getContent_at_index_none hids
          have h1m := hmem "index"
          rw [h0] at h1m
          simp only [if_pos rfl]
          simp [List.mem_filter, h1m]
        · simp only [if_neg hid]
          rw [getContent_delKey]
          rcases eq_or_ne (contentKey id2) (contentKey id) with hk | hk
          · have hid2 : id2 = id := contentKey_inj hk
            subst hid2
            simp [List.mem_filter, if_pos hk]
          · have hne2 : id2 ≠ id := fun hh => hk (by rw [hh])
            simp only [if_neg hk]
            rw [List.mem_filter]
            simp [hne2, hmem id2]

/-- A completed setArticle preserves article index/record consistency. -/
theorem setArticle_preserves_consistent {a : Article} {s s1 : Sys}
    (hc : articleConsistent s.store)
    (h : setArticle a s = (Except.ok (), s1)) :
    articleConsistent s1.store := by
  obtain ⟨ids, hids, hmem⟩ := hc
  unfold setArticle at h
  rcases h1 : storageSet (articleKey a.id) (StorageValue.article a) s
    with ⟨res1, sA⟩
  rw [h1] at h
  rcases res1 with e | u
  · simp at h
  obtain ⟨hstA, _, _⟩ := storageSet_ok h1
  simp only at h
  rcases eq_or_ne a.id "index" with hix | hix
  · have hkey : articleKey a.id = articleIndexKey := by
      rw [hix]; decide
    have hbad : getArticleIndex sA.store
        = Except.error "TypeError: article index is not an array" := by
      rw [hstA]
      unfold getArticleIndex Storage.setKey
      simp [hkey]
    rw [hbad] at h
    simp at h
  · have hread : getArticleIndex sA.store = Except.ok ids := by
      rw [hstA, getArticleIndex_setKey_article _ _ hix, hids]
    rw [hread] at h
    simp only at h
    by_cases hin : a.id ∈ ids
    · simp only [if_pos hin] at h
      cases h
      refine ⟨ids, hread, fun id => ?_⟩
      rw [hstA, getArticle_setKey_article]
      rcases eq_or_ne id a.id with hid | hid
      · simp [hid, hin]
      · simp only [if_neg hid]
        exact hmem id
    · simp only [if_neg hin] at h
      obtain ⟨hstB, _, _⟩ := storageSet_ok h
      refine ⟨ids ++ [a.id], ?_, fun id => ?_⟩
      · rw [hstB, getArticleIndex_setKey_index]
      · rw [hstB, getArticle_setKey_index]
        rcases eq_or_ne id "index" with hid | hid
        · subst hid
          have h0 : getArticle s.store "index" = none :=
            getArticle_at_index_none hids
          have h1m := hmem "index"
          rw [h0] at h1m
          simp only [if_pos rfl]
          simp [List.mem_append, h1m, Ne.symm hix]
        · simp only [if_neg hid]
          rw [hstA, getArticle_setKey_article]
          rcases eq_or_ne id a.id with hid2 | hid2
          · simp [hid2]
          · simp only [if_neg hid2, List.mem_append, List.mem_singleton, hid2,
              or_false]
            exact hmem id

-- ===========================================================================
-- Facts about the concrete sample states
-- ===========================================================================

theorem emptyStorage_contentConsistent : contentConsistent emptyStorage :=
  ⟨[], rfl, fun id => by simp [getContent, emptyStorage, contentKey]⟩

theorem emptyStorage_articleConsistent : articleConsistent emptyStorage :=
  ⟨[], rfl, fun id => by simp [getArticle, emptyStorage, articleKey]⟩

theorem storeOneRecord_contentConsistent : contentConsistent storeOneRecord := by
  refine ⟨["a"], rfl, fun id => ?_⟩
  simp only [List.mem_singleton]
  constructor
  · rintro rfl
    decide
  · intro hsome
    by_contra hne
    have hnone : getContent storeOneRecord id = none := by
      unfold getContent storeOneRecord
      rcases eq_or_ne (contentKey id) "content:index" with hk | hk
      · simp [hk]
      · rcases eq_or_ne (contentKey id) "content:a" with hk2 | hk2
        · have hid : id = "a" := contentKey_inj (by rw [hk2]; decide)
          exact absurd hid hne
        · simp [hk, hk2]
    rw [hnone] at hsome
    simp at hsome

theorem storeOneRecord_idCoherent : idCoherent storeOneRecord := by
  intro i c hc
  unfold getContent storeOneRecord at hc
  rcases eq_or_ne (contentKey i) "content:index" with hk | hk
  · simp [hk] at hc
  · rcases eq_or_ne (contentKey i) "content:a" with hk2 | hk2
    · have hi : i = "a" := contentKey_inj (by rw [hk2]; decide)
      simp [hk, hk2] at hc
      rw [← hc, hi]
      decide
    · simp [hk, hk2] at hc

-- ===========================================================================
-- Claim C1
-- ===========================================================================

/-- C1 counterexample: the claim quantifies over every complete operation, but
deleteContentById with the id "index" (whose record key is the index key
itself) completes with true from a consistent one-record state and destroys
the index, stranding the record "a" outside it. -/
theorem deleteContentById_at_index_breaks_consistency :
    contentConsistent sysOneRecord.store ∧
    (deleteContentById "index" sysOneRecord).1 = Except.ok true ∧
    ¬ contentConsistent (deleteContentById "index" sysOneRecord).2.store := by
  refine ⟨storeOneRecord_contentConsistent, rfl, ?_⟩
  rintro ⟨ids, hids, hmem⟩
  have hend : getContentIndex (deleteContentById "index" sysOneRecord).2.store
      = Except.ok [] := rfl
  rw [hend] at hids
  have hids2 : ids = [] := by
    simpa using hids.symm
  subst hids2
  have hx : (getContent (deleteContentById "index" sysOneRecord).2.store
      "a").isSome := by decide
  have := (hmem "a").mpr hx
  simp at this

/-- C1 (amended): starting from a state in which the content index contains
exactly the ids of retrievable content records, every complete setContent and
every complete deleteContentById whose id is not the literal "index" (the one
id whose record key collides with the index key) re-establish that invariant;
likewise every complete setArticle for the article index. -/
theorem index_record_consistency :
    (∀ (c : ContentPiece) (s s1 : Sys), contentConsistent s.store →
      setContent c s = (Except.ok (), s1) → contentConsistent s1.store) ∧
    (∀ (id : String) (s s1 : Sys) (b : Bool), id ≠ "index" →
      contentConsistent s.store →
      deleteContentById id s = (Except.ok b, s1) →
      contentConsistent s1.store) ∧
    (∀ (a : Article) (s s1 : Sys), articleConsistent s.store →
      setArticle a s = (Except.ok (), s1) → articleConsistent s1.store) :=
  ⟨fun _ _ _ hc h => setContent_preserves_consistent hc h,
   fun _ _ _ _ hix hc h => deleteContentById_preserves_consistent hix hc h,
   fun _ _ _ hc h => setArticle_preserves_consistent hc h⟩

/-- C1 witness: the three conjuncts applied to complete concrete runs. -/
theorem index_record_consistency_witness :
    contentConsistent (setContent pieceB sysOneRecord).2.store ∧
    contentConsistent (deleteContentById "a" sysOneRecord).2.store ∧
    articleConsistent (setArticle sampleArticle emptySys).2.store :=
  ⟨index_record_consistency.1 pieceB sysOneRecord _
      storeOneRecord_contentConsistent rfl,
   index_record_consistency.2.1 "a" sysOneRecord _ true (by decide)
      storeOneRecord_contentConsistent rfl,
   index_record_consistency.2.2 sampleArticle emptySys _
      emptyStorage_articleConsistent rfl⟩

-- ===========================================================================
-- Run characterization of deleteContentById / deleteContent
-- ===========================================================================

/-- What a complete deleteContentById of an id other than "index" did: it
reported presence of the record key, removed it, filtered the index exactly
when it reported true, and never touched article keys. -/
theorem deleteContentById_complete_spec {id : String} {s s1 : Sys} {r : Bool}
    (hix : id ≠ "index")
    (h : deleteContentById id s = (Except.ok r, s1)) :
    r = (s.store (contentKey id)).isSome ∧
    getContent s1.store id = none ∧
    s1.store (contentKey id) = none ∧
    (r = false → ∀ k, s1.store k = s.store k) ∧
    (r = true → ∃ ids, getContentIndex s.store = Except.ok ids ∧
      getContentIndex s1.store
        = Except.ok (ids.filter (fun i => i ≠ id)) ∧
      s1.store = (s.store.delKey (contentKey id)).setKey contentIndexKey
        (StorageValue.index (ids.filter (fun i => i ≠ id)))) ∧
    (∀ x, getArticle s1.store x = getArticle s.store x) ∧
    getArticleIndex s1.store = getArticleIndex s.store := by
  have hkeyne : contentIndexKey ≠ contentKey id :=
    fun hk => hix (contentKey_eq_indexKey_iff.mp hk.symm)
  unfold deleteContentById at h
  rw [storageDelete_eq] at h
  rcases hex : (s.store (contentKey id)).isSome with _ | _
  · rw [hex] at h
    simp only at h
    cases h
    have hnone : s.store (contentKey id) = none := by
      rcases hv : s.store (contentKey id) with _ | v
      · rfl
      · rw [hv] at hex; simp at hex
    have hpt : ∀ k,
        (s.store.delKey (contentKey id)) k = s.store k := by
      intro k
      unfold Storage.delKey
      rcases eq_or_ne k (contentKey id) with hk | hk
      · rw [if_pos hk, hk, hnone]
      · rw [if_neg hk]
    refine ⟨rfl, ?_, ?_, fun _ => hpt, fun hcon => by simp at hcon, ?_, ?_⟩
    · unfold getContent
      simp only
      rw [hpt (contentKey id), hnone]
    · simp only
      rw [hpt (contentKey id), hnone]
    · intro x
      unfold getArticle
      simp only
      rw [hpt (articleKey x)]
    · unfold getArticleIndex
      simp only
      rw [hpt articleIndexKey]
  · rw [hex] at h
    simp only at h
    rcases hidx : getContentIndex (s.store.delKey (contentKey id))
      with e | ids
    · rw [hidx] at h
      simp at h
    · rw [hidx] at h
      simp only at h
      rcases h2 : storageSet contentIndexKey
          (StorageValue.index (ids.filter (fun i => i ≠ id)))
          { s with store := s.store.delKey (contentKey id) }
        with ⟨res2, sB⟩
      rw [h2] at h
      rcases res2 with e | u
      · simp at h
      · simp only at h
        cases h
        obtain ⟨hstB, _, _⟩ := storageSet_ok h2
        have hstB2 : s1.store
            = (s.store.delKey (contentKey id)).setKey contentIndexKey
              (StorageValue.index (ids.filter (fun i => i ≠ id))) := hstB
        have hidxS : getContentIndex s.store = Except.ok ids := by
          rw [← getContentIndex_delKey_other s.store (contentKey id) hkeyne]
          exact hidx
        have hgB : ∀ x, x ≠ "index" → getContent s1.store x
            = if contentKey x = contentKey id then none
              else getContent s.store x := by
          intro x hx
          rw [hstB2, getContent_setKey_index, if_neg hx, getContent_delKey]
        refine ⟨rfl, ?_, ?_, fun hcon => by simp at hcon,
          fun _ => ⟨ids, hidxS, ?_, hstB2⟩, ?_, ?_⟩
        · rw [hgB id hix, if_pos rfl]
        · rw [hstB2]
          unfold Storage.setKey
          rw [if_neg hkeyne.symm]
          unfold Storage.delKey
          rw [if_pos rfl]
        · rw [hstB2, getContentIndex_setKey_index]
        · intro x
          rw [hstB2,
            getArticle_setKey_contentKey _ _ _ _
              (articleKey_ne_contentIndexKey x),
            getArticle_delKey_contentKey _ _ _
              (contentKey_ne_articleKey id x).symm]
        · rw [hstB2,
            getArticleIndex_setKey_other _ _ _ (by decide),
            getArticleIndex_delKey_other _ _
              (fun hk => (contentKey_ne_articleIndexKey id) hk.symm)]

/-- deleteContent of an id whose record key is absent reports notFound and
observably changes nothing. -/
theorem deleteContent_of_absent {input : ActionInput} {s s1 : Sys}
    {r : ActionResult}
    (habs : s.store (contentKey input.contentId) = none)
    (h : deleteContent input s = (Except.ok r, s1)) :
    r = deleteNotFoundEnvelope ∧
    getContentIndex s1.store = getContentIndex s.store ∧
    (∀ x, getContent s1.store x = getContent s.store x) ∧
    (∀ x, getArticle s1.store x = getArticle s.store x) ∧
    getArticleIndex s1.store = getArticleIndex s.store := by
  unfold deleteContent deleteContentById at h
  rw [storageDelete_eq] at h
  have hex : (s.store (contentKey input.contentId)).isSome = false := by
    rw [habs]; rfl
  rw [hex] at h
  simp only at h
  cases h
  have hpt : ∀ k,
      (s.store.delKey (contentKey input.contentId)) k = s.store k := by
    intro k
    unfold Storage.delKey
    rcases eq_or_ne k (contentKey input.contentId) with hk | hk
    · rw [if_pos hk, hk, habs]
    · rw [if_neg hk]
  refine ⟨rfl, ?_, ?_, ?_, ?_⟩
  · unfold getContentIndex
    simp only
    rw [hpt contentIndexKey]
  · intro x
    unfold getContent
    simp only
    rw [hpt (contentKey x)]
  · intro x
    unfold getArticle
    simp only
    rw [hpt (articleKey x)]
  · unfold getArticleIndex
    simp only
    rw [hpt articleIndexKey]

-- ===========================================================================
-- Claim C7
-- ===========================================================================

/-- C7 counterexample: once the index key has been written (here as the empty
list), deleting the id "index" finds no content record, yet storage.delete
removes the index key itself and reports true, so deleteContent answers
success where the claim requires notFound. -/
theorem deleteContent_at_index_success_without_record :
    getContent sysEmptyIndex.store "index" = none ∧
    (deleteContent { contentId := "index" } sysEmptyIndex).1
      = Except.ok deleteSuccessEnvelope ∧
    deleteSuccessEnvelope ≠ deleteNotFoundEnvelope := by
  refine ⟨rfl, rfl, ?_⟩
  intro h
  have h2 := congrArg ActionResult.agentData h
  simp [deleteSuccessEnvelope, deleteNotFoundEnvelope, templateResult] at h2

/-- C7 (amended): for a content id other than the literal "index" (whose
record key is the index key itself): deleting an id whose record exists
returns the success template and removes both the record and its index entry,
so it no longer appears among the pieces listContent enumerates; deleting an
id whose record key is absent returns the notFound template and leaves the
index and every record unchanged; deleting the same id twice yields success
then notFound; article records and the article index are never touched, so
dangling sourceContentIds references survive. -/
theorem deleteContent_spec :
    ∀ (input : ActionInput) (s : Sys), input.contentId ≠ "index" →
    (∀ (c : ContentPiece) (r : ActionResult) (s1 : Sys),
        getContent s.store input.contentId = some c →
        idCoherent s.store →
        deleteContent input s = (Except.ok r, s1) →
        r = deleteSuccessEnvelope ∧
        getContent s1.store input.contentId = none ∧
        (∀ ids1, getContentIndex s1.store = Except.ok ids1 →
          input.contentId ∉ ids1) ∧
        (∀ c1, c1 ∈ listedPieces s1.store → c1.id ≠ input.contentId) ∧
        (∀ x, getArticle s1.store x = getArticle s.store x) ∧
        getArticleIndex s1.store = getArticleIndex s.store ∧
        (∀ (r2 : ActionResult) (s2 : Sys),
          deleteContent input s1 = (Except.ok r2, s2) →
          r2 = deleteNotFoundEnvelope)) ∧
    (∀ (r : ActionResult) (s1 : Sys),
        s.store (contentKey input.contentId) = none →
        deleteContent input s = (Except.ok r, s1) →
        r = deleteNotFoundEnvelope ∧
        getContentIndex s1.store = getContentIndex s.store ∧
        (∀ x, getContent s1.store x = getContent s.store x) ∧
        (∀ x, getArticle s1.store x = getArticle s.store x) ∧
        getArticleIndex s1.store = getArticleIndex s.store) := by
  intro input s hix
  constructor
  · intro c r s1 hrec hco h
    have hsome : (s.store (contentKey input.contentId)).isSome = true := by
      unfold getContent at hrec
      rcases hv : s.store (contentKey input.contentId) with _ | v
      · rw [hv] at hrec; simp at hrec
      · rfl
    unfold deleteContent at h
    rcases hd : deleteContentById input.contentId s with ⟨res, sD⟩
    rw [hd] at h
    rcases res with e | b
    · simp at h
    · simp only at h
      have hb : b = true := by
        have := (deleteContentById_complete_spec hix hd).1
        rw [this, hsome]
      subst hb
      simp only [if_pos] at h
      cases h
      obtain ⟨_, hgone, habs2, _, htrue, hart, hartidx⟩ :=
        deleteContentById_complete_spec hix hd
      obtain ⟨ids, hidsS, hids1, hstore1⟩ := htrue rfl
      refine ⟨rfl, hgone, ?_, ?_, hart, hartidx, ?_⟩
      · intro ids1 hids1b
        rw [hids1] at hids1b
        have : ids1 = ids.filter (fun i => i ≠ input.contentId) := by
          simpa using hids1b.symm
        subst this
        intro hmem
        rw [List.mem_filter] at hmem
        simp at hmem
      · intro c1 hc1
        unfold listedPieces at hc1
        rw [hids1] at hc1
        rw [List.mem_filterMap] at hc1
        obtain ⟨i, hi, hgi⟩ := hc1
        rw [List.mem_filter] at hi
        have hine : i ≠ input.contentId := by
          have := hi.2
          simpa using this
        rcases eq_or_ne i "index" with hii | hii
        · subst hii
          rw [hstore1, getContent_setKey_index, if_pos rfl] at hgi
          simp at hgi
        · rw [hstore1, getContent_setKey_index, if_neg hii,
            getContent_delKey] at hgi
          rcases eq_or_ne (contentKey i) (contentKey input.contentId)
            with hk | hk
          · rw [if_pos hk] at hgi
            simp at hgi
          · rw [if_neg hk] at hgi
            have := hco i c1 hgi
            rw [this]
            exact hine
      · intro r2 s2 h2
        exact (deleteContent_of_absent habs2 h2).1
  · intro r s1 habs h
    exact deleteContent_of_absent habs h

/-- C7 witness: deleting the stored id "a" succeeds and removes the record;
deleting it again answers notFound. -/
theorem deleteContent_spec_witness :
    (deleteContent { contentId := "a" } sysOneRecord).1
      = Except.ok deleteSuccessEnvelope ∧
    getContent (deleteContent { contentId := "a" } sysOneRecord).2.store "a"
      = none ∧
    (deleteContent { contentId := "a" }
        (deleteContent { contentId := "a" } sysOneRecord).2).1
      = Except.ok deleteNotFoundEnvelope := by
  have h := deleteContent_spec { contentId := "a" } sysOneRecord (by decide)
  have ha := h.1 samplePiece deleteSuccessEnvelope
      (deleteContent { contentId := "a" } sysOneRecord).2 rfl
      storeOneRecord_idCoherent rfl
  exact ⟨rfl, ha.2.1, rfl⟩

-- ===========================================================================
-- Claim C2
-- ===========================================================================

/-- C2: for every invocation, invoke returns an envelope rather than
propagating a failure: a missing storage yields the fixed template error
envelope, an unknown action name yields a template error envelope naming it,
and a dispatch that threw is answered by a template error envelope carrying
the thrown message. -/
theorem invoke_normalizes_failures :
    ∀ (action : String) (input : ActionInput) (ext : ExtEnv)
      (storage : Option Sys),
    (storage = none →
      invoke action input ext storage
        = (dispatchErrorEnvelope "Storage not provided", none)) ∧
    (∀ s, storage = some s → action ∉ knownActions →
      invoke action input ext storage
        = (dispatchErrorEnvelope ("Unknown action: " ++ action), some s)) ∧
    (∀ s e s1, storage = some s →
      dispatch action input ext s = (Except.error e, s1) →
      invoke action input ext storage
        = (dispatchErrorEnvelope e, some s1)) := by
  intro action input ext storage
  refine ⟨?_, ?_, ?_⟩
  · rintro rfl
    rfl
  · rintro s rfl hmem
    simp only [knownActions, List.mem_cons, List.not_mem_nil, or_false,
      not_or] at hmem
    obtain ⟨h1, h2, h3, h4, h5, h6, h7⟩ := hmem
    unfold invoke
    simp only
    unfold dispatch
    rw [if_neg h1, if_neg h2, if_neg h3, if_neg h4, if_neg h5, if_neg h6,
      if_neg h7]
  · rintro s e s1 rfl hd
    unfold invoke
    simp only
    rw [hd]

/-- C2 witness: the three failure shapes at concrete invocations. -/
theorem invoke_normalizes_failures_witness :
    invoke "listContent" {} {} none
      = (dispatchErrorEnvelope "Storage not provided", none) ∧
    invoke "frobnicate" {} {} (some sysOneRecord)
      = (dispatchErrorEnvelope ("Unknown action: " ++ "frobnicate"),
         some sysOneRecord) ∧
    invoke "createArticle" { contentIds := ["a"] } {} (some sysOneRecord)
      = (dispatchErrorEnvelope "OPENAI_API_KEY not configured",
         some sysOneRecord) :=
  ⟨(invoke_normalizes_failures "listContent" {} {} none).1 rfl,
   (invoke_normalizes_failures "frobnicate" {} {} (some sysOneRecord)).2.1
      sysOneRecord rfl (by decide),
   (invoke_normalizes_failures "createArticle" { contentIds := ["a"] } {}
      (some sysOneRecord)).2.2 sysOneRecord
      "OPENAI_API_KEY not configured" sysOneRecord rfl rfl⟩

-- ===========================================================================
-- Claim C10
-- ===========================================================================

/-- C10: a supplied limit of 0 is coerced by falsy coalescing to the default
20 in both list actions (and offset 0 likewise behaves as absent), so limit 0
can return up to 20 items rather than zero, as the concrete two-piece store
shows. -/
theorem falsy_limit_offset_coerced_to_default :
    (∀ (input : ActionInput) (s : Sys),
      listContent { input with limit := some 0 } s
        = listContent { input with limit := none } s ∧
      listContent { input with limit := some 0 } s
        = listContent { input with limit := some 20 } s ∧
      listContent { input with offset := some 0 } s
        = listContent { input with offset := none } s ∧
      listArticles { input with limit := some 0 } s
        = listArticles { input with limit := none } s ∧
      listArticles { input with limit := some 0 } s
        = listArticles { input with limit := some 20 } s ∧
      listArticles { input with offset := some 0 } s
        = listArticles { input with offset := none } s) ∧
    (listContent { limit := some 0 } sysTwoRecords).1
      = Except.ok (templateResult
        [("template", JValue.str "success"), ("totalCount", JValue.num 2),
         ("returnedCount", JValue.num 2),
         ("items", JValue.arr [summarizeContent pieceB,
                               summarizeContent samplePiece])]) :=
  ⟨fun _ _ => ⟨rfl, rfl, rfl, rfl, rfl, rfl⟩, by rfl⟩

-- ===========================================================================
-- Claim C3
-- ===========================================================================

/-- The some/includes filter of the source coincides with the membership
statement of the specification (share at least one tag, logical OR). -/
theorem code_filter_eq_spec (filterTags : List String) (c : ContentPiece) :
    (filterTags.any fun tag => c.tags.contains tag)
      = decide (∃ t ∈ filterTags, t ∈ c.tags) := by
  by_cases h : ∃ t ∈ filterTags, t ∈ c.tags
  · have h1 : (filterTags.any fun tag => c.tags.contains tag) = true := by
      rw [List.any_eq_true]
      obtain ⟨t, ht, htc⟩ := h
      exact ⟨t, ht, by simpa using htc⟩
    rw [h1, eq_comm, decide_eq_true_eq]
    exact h
  · have h1 : (filterTags.any fun tag => c.tags.contains tag) = false := by
      rw [List.any_eq_false]
      intro t ht hc
      exact h ⟨t, ht, by simpa using hc⟩
    rw [h1, eq_comm, decide_eq_false_iff_not]
    exact h

/-- C3: with an empty content index listContent returns the empty envelope
with zero counts; otherwise it resolves the indexed pieces (skipping failed
lookups), keeps under a non-empty tags filter exactly the pieces sharing at
least one tag, reports totalCount as the post-filter pre-pagination count,
pages a descending-by-addedAt sorted permutation of the filtered pieces with
drop offset / take limit, reports returnedCount as the page length (hence at
most limit), and summarizes items to exactly id, title, source, tags and
addedAt. -/
theorem listContent_meets_spec :
    ∀ (input : ActionInput) (s : Sys) (index : List String),
    getContentIndex s.store = Except.ok index →
    (index = [] → listContent input s = (Except.ok emptyListEnvelope, s)) ∧
    (index ≠ [] →
      ∃ sorted : List ContentPiece,
        sorted.Perm (specFiltered input s index) ∧
        sorted.Sorted contentDescOrder ∧
        listContent input s = (Except.ok (templateResult
          [("template", JValue.str "success"),
           ("totalCount", JValue.num (specFiltered input s index).length),
           ("returnedCount", JValue.num
             ((sorted.drop (jsOrNat input.offset 0)).take
               (jsOrNat input.limit 20)).length),
           ("items", JValue.arr
             (((sorted.drop (jsOrNat input.offset 0)).take
               (jsOrNat input.limit 20)).map summarizeContent))]), s) ∧
        ((sorted.drop (jsOrNat input.offset 0)).take
            (jsOrNat input.limit 20)).length ≤ jsOrNat input.limit 20 ∧
        ∀ v ∈ ((sorted.drop (jsOrNat input.offset 0)).take
            (jsOrNat input.limit 20)).map summarizeContent,
          objFieldNames v = ["id", "title", "source", "tags", "addedAt"]) := by
  intro input s index hidx
  constructor
  · rintro rfl
    unfold listContent
    rw [hidx]
    simp
  · intro hne
    have hfq : (if (input.tags.getD []).length > 0
        then (index.filterMap (fun id => getContent s.store id)).filter
          (fun item =>
            (input.tags.getD []).any (fun tag => item.tags.contains tag))
        else index.filterMap (fun id => getContent s.store id))
        = specFiltered input s index := by
      unfold specFiltered
      by_cases hc : (input.tags.getD []).length > 0
      · rw [if_pos hc, if_pos hc]
        exact List.filter_congr (fun x _ => code_filter_eq_spec _ x)
      · rw [if_neg hc, if_neg hc]
    have hperm := List.perm_insertionSort contentDescOrder
      (specFiltered input s index)
    refine ⟨List.insertionSort contentDescOrder (specFiltered input s index),
      hperm, List.sorted_insertionSort _ _, ?_, List.length_take_le _ _, ?_⟩
    · unfold listContent
      rw [hidx]
      simp only
      rw [if_neg (by simpa using hne), hfq, hperm.length_eq]
    · intro v hv
      rw [List.mem_map] at hv
      obtain ⟨c, _, rfl⟩ := hv
      rfl

/-- C3 witness: the empty-index branch at the empty system. -/
theorem listContent_meets_spec_witness :
    listContent {} emptySys = (Except.ok emptyListEnvelope, emptySys) :=
  (listContent_meets_spec {} emptySys [] rfl).1 rfl

-- ===========================================================================
-- setDedup (JavaScript Set spread) lemmas
-- ===========================================================================

theorem setDedup_aux_mem (l acc : List String) (x : String) :
    x ∈ l.foldl (fun acc y => if y ∈ acc then acc else acc ++ [y]) acc
      ↔ x ∈ acc ∨ x ∈ l := by
  induction l generalizing acc with
  | nil => simp
  | cons y ys ih =>
    simp only [List.foldl_cons]
    by_cases hy : y ∈ acc
    · rw [if_pos hy, ih]
      simp only [List.mem_cons]
      constructor
      · rintro (h | h)
        · exact Or.inl h
        · exact Or.inr (Or.inr h)
      · rintro (h | h | h)
        · exact Or.inl h
        · subst h; exact Or.inl hy
        · exact Or.inr h
    · rw [if_neg hy, ih]
      simp only [List.mem_append, List.mem_singleton, List.mem_cons]
      tauto

theorem setDedup_aux_nodup (l : List String) (acc : List String)
    (hacc : acc.Nodup) :
    (l.foldl (fun acc y => if y ∈ acc then acc else acc ++ [y]) acc).Nodup := by
  induction l generalizing acc with
  | nil => simpa
  | cons y ys ih =>
    simp only [List.foldl_cons]
    by_cases hy : y ∈ acc
    · rw [if_pos hy]
      exact ih _ hacc
    · rw [if_neg hy]
      refine ih _ ?_
      simp [List.nodup_append, hacc, hy]

/-- Membership in the Set spread is membership in the underlying list. -/
theorem mem_setDedup (l : List String) (x : String) :
    x ∈ setDedup l ↔ x ∈ l := by
  unfold setDedup
  rw [setDedup_aux_mem]
  simp

/-- The Set spread carries no duplicates. -/
theorem setDedup_nodup (l : List String) : (setDedup l).Nodup :=
  setDedup_aux_nodup l [] (by simp)

-- ===========================================================================
-- Run characterization of setArticle and updateArticle
-- ===========================================================================

theorem getContent_setKey_other (st : Storage) (key : String)
    (v : StorageValue) (x : String) (h : contentKey x ≠ key) :
    getContent (st.setKey key v) x = getContent st x := by
  unfold getContent Storage.setKey
  simp [h]

/-- What a complete setArticle did: the record is retrievable under its id,
every other article lookup and every content lookup is unchanged, and the id
was appended to the article index exactly when absent. -/
theorem setArticle_complete_spec {a : Article} {s s1 : Sys}
    (h : setArticle a s = (Except.ok (), s1)) :
    a.id ≠ "index" ∧
    getArticle s1.store a.id = some a ∧
    (∀ x, x ≠ a.id → getArticle s1.store x = getArticle s.store x) ∧
    (∀ x, getContent s1.store x = getContent s.store x) ∧
    (∃ ids, getArticleIndex s.store = Except.ok ids ∧
      getArticleIndex s1.store
        = Except.ok (if a.id ∈ ids then ids else ids ++ [a.id])) := by
  unfold setArticle at h
  rcases h1 : storageSet (articleKey a.id) (StorageValue.article a) s
    with ⟨res1, sA⟩
  rw [h1] at h
  rcases res1 with e | u
  · simp at h
  obtain ⟨hstA, _, _⟩ := storageSet_ok h1
  simp only at h
  rcases eq_or_ne a.id "index" with hix | hix
  · have hkey : articleKey a.id = articleIndexKey := by
      rw [hix]; decide
    have hbad : getArticleIndex sA.store
        = Except.error "TypeError: article index is not an array" := by
      rw [hstA]
      unfold getArticleIndex Storage.setKey
      simp [hkey]
    rw [hbad] at h
    simp at h
  rcases hidsS : getArticleIndex s.store with e | ids
  · have : getArticleIndex sA.store = Except.error e := by
      rw [hstA, getArticleIndex_setKey_article _ _ hix, hidsS]
    rw [this] at h
    simp at h
  have hread : getArticleIndex sA.store = Except.ok ids := by
    rw [hstA, getArticleIndex_setKey_article _ _ hix, hidsS]
  rw [hread] at h
  simp only at h
  by_cases hin : a.id ∈ ids
  · rw [if_pos hin] at h
    cases h
    refine ⟨hix, ?_, ?_, ?_, ids, rfl, by rw [hread, if_pos hin]⟩
    · rw [hstA, getArticle_setKey_article, if_pos rfl]
    · intro x hx
      rw [hstA, getArticle_setKey_article, if_neg hx]
    · intro x
      rw [hstA,
        getContent_setKey_other _ _ _ _ (contentKey_ne_articleKey x a.id)]
  · rw [if_neg hin] at h
    obtain ⟨hstB, _, _⟩ := storageSet_ok h
    refine ⟨hix, ?_, ?_, ?_, ids, rfl, ?_⟩
    · rw [hstB, getArticle_setKey_index, if_neg hix, hstA,
        getArticle_setKey_article, if_pos rfl]
    · intro x hx
      rcases eq_or_ne x "index" with hxi | hxi
      · subst hxi
        rw [hstB, getArticle_setKey_index, if_pos rfl]
        exact (getArticle_at_index_none hidsS).symm
      · rw [hstB, getArticle_setKey_index, if_neg hxi, hstA,
          getArticle_setKey_article, if_neg hx]
    · intro x
      rw [hstB,
        getContent_setKey_other _ _ _ _ (contentKey_ne_articleIndexKey x),
        hstA,
        getContent_setKey_other _ _ _ _ (contentKey_ne_articleKey x a.id)]
    · rw [hstB, getArticleIndex_setKey_index, if_neg hin]

/-- What a complete updateArticle on an existing article did: the model was
consulted once and the revised article was persisted through setArticle,
with the article passthrough envelope returned. -/
theorem updateArticle_ok_run {input : ActionInput} {ext : ExtEnv} {s s1 : Sys}
    {article : Article} {r : ActionResult}
    (hart : getArticle s.store input.articleId = some article)
    (h : updateArticle input ext s = (Except.ok r, s1)) :
    ∃ resp, ext.llm = Except.ok resp ∧
      setArticle (updatedArticle article input resp (nowTime s).1)
        (nowTime s).2 = (Except.ok (), s1) ∧
      r = passthroughResult
        [("contentType", JValue.str "article"),
         ("content", JValue.str ("# " ++ article.title ++ "\n\n" ++
           jsOrString resp article.content)),
         ("metadata", JValue.obj
           [("articleId", JValue.str article.id),
            ("title", JValue.str article.title),
            ("version", JValue.num (article.version + 1))])] := by
  unfold updateArticle at h
  rw [hart] at h
  simp only at h
  rcases hoa : getOpenAI ext with e | u
  · rw [hoa] at h
    simp at h
  rw [hoa] at h
  simp only at h
  rcases hllm : ext.llm with e | resp
  · rw [hllm] at h
    simp at h
  rw [hllm] at h
  simp only at h
  rcases hnt : nowTime s with ⟨t, sT⟩
  rw [hnt] at h
  simp only at h
  rcases hsa : setArticle
      { article with
        content := jsOrString resp article.content,
        version := article.version + 1,
        updatedAt := t,
        sourceContentIds :=
          if (input.additionalContentIds.getD []).length > 0 then
            setDedup (article.sourceContentIds ++
              input.additionalContentIds.getD [])
          else article.sourceContentIds } sT
    with ⟨res, sB⟩
  rw [hsa] at h
  rcases res with e | u
  · simp at h
  simp only at h
  cases h
  cases u
  refine ⟨resp, rfl, ?_, rfl⟩
  unfold updatedArticle
  exact hsa

-- ===========================================================================
-- Claim C4
-- ===========================================================================

/-- C4: updateArticle on an existing article: every successful call stores
the article with version incremented by exactly 1 (hence never decreased) and
updatedAt refreshed to the fresh clock reading; sourceContentIds becomes the
duplicate-free union of the old list and the supplied ids exactly when
additionalContentIds is supplied non-empty and stays unchanged when it is
omitted; a nonexistent articleId yields a passthrough error with no state
change. -/
theorem updateArticle_spec :
    ∀ (input : ActionInput) (ext : ExtEnv) (s : Sys),
    (getArticle s.store input.articleId = none →
      updateArticle input ext s
        = (Except.ok (passthroughError "Article not found"), s)) ∧
    (∀ (article : Article) (r : ActionResult) (s1 : Sys),
      getArticle s.store input.articleId = some article →
      updateArticle input ext s = (Except.ok r, s1) →
      ∃ article2 : Article,
        getArticle s1.store article.id = some article2 ∧
        article2.version = article.version + 1 ∧
        article.version < article2.version ∧
        article2.updatedAt = (nowTime s).1 ∧
        (input.additionalContentIds = none →
          article2.sourceContentIds = article.sourceContentIds) ∧
        ((input.additionalContentIds.getD []).length > 0 →
          article2.sourceContentIds.Nodup ∧
          ∀ x, x ∈ article2.sourceContentIds ↔
            x ∈ article.sourceContentIds ∨
            x ∈ input.additionalContentIds.getD [])) := by
  intro input ext s
  constructor
  · intro hnone
    unfold updateArticle
    rw [hnone]
  · intro article r s1 hart h
    obtain ⟨resp, hllm, hsa, hr⟩ := updateArticle_ok_run hart h
    obtain ⟨hix, hget, _, _, _⟩ := setArticle_complete_spec hsa
    refine ⟨updatedArticle article input resp (nowTime s).1, ?_, rfl,
      Nat.lt_succ_self _, rfl, ?_, ?_⟩
    · exact hget
    · intro hnone2
      unfold updatedArticle
      simp [hnone2]
    · intro hpos
      unfold updatedArticle
      simp only [if_pos hpos]
      exact ⟨setDedup_nodup _,
        fun x => by rw [mem_setDedup, List.mem_append]⟩

/-- C4 witness: a concrete successful revision with additional ids, and the
not-found branch. -/
theorem updateArticle_spec_witness :
    (∃ article2 : Article,
      getArticle (updateArticle
          { articleId := "art1", additionalContentIds := some ["c1", "c9"] }
          { apiKey := some "k", llm := Except.ok (some "revised") }
          sysArticleOne).2.store "art1" = some article2 ∧
      article2.version = sampleArticle.version + 1 ∧
      article2.sourceContentIds.Nodup) ∧
    updateArticle { articleId := "ghost" }
        { apiKey := some "k", llm := Except.ok (some "revised") }
        sysArticleOne
      = (Except.ok (passthroughError "Article not found"), sysArticleOne) := by
  constructor
  · obtain ⟨article2, hget, hv, _, _, _, hpos⟩ :=
      (updateArticle_spec
        { articleId := "art1", additionalContentIds := some ["c1", "c9"] }
        { apiKey := some "k", llm := Except.ok (some "revised") }
        sysArticleOne).2 sampleArticle _ _ rfl rfl
    exact ⟨article2, hget, hv, (hpos (by decide)).1⟩
  · exact (updateArticle_spec { articleId := "ghost" }
      { apiKey := some "k", llm := Except.ok (some "revised") }
      sysArticleOne).1 rfl

-- ===========================================================================
-- Claim C9
-- ===========================================================================

/-- C9: when the model response carries no content (missing message content or
the empty string), a completed updateArticle leaves the stored content equal
to its previous value, yet still succeeds with the article passthrough, still
increments version by 1 and still refreshes updatedAt. -/
theorem updateArticle_empty_revision :
    ∀ (input : ActionInput) (ext : ExtEnv) (s s1 : Sys) (article : Article)
      (r : ActionResult) (resp : Option String),
    getArticle s.store input.articleId = some article →
    ext.llm = Except.ok resp →
    (resp = none ∨ resp = some "") →
    updateArticle input ext s = (Except.ok r, s1) →
    ∃ article2 : Article,
      getArticle s1.store article.id = some article2 ∧
      article2.content = article.content ∧
      article2.version = article.version + 1 ∧
      article2.updatedAt = (nowTime s).1 ∧
      r = passthroughResult
        [("contentType", JValue.str "article"),
         ("content", JValue.str ("# " ++ article.title ++ "\n\n" ++
           article.content)),
         ("metadata", JValue.obj
           [("articleId", JValue.str article.id),
            ("title", JValue.str article.title),
            ("version", JValue.num (article.version + 1))])] := by
  intro input ext s s1 article r resp hart hllm hresp h
  obtain ⟨resp2, hllm2, hsa, hr⟩ := updateArticle_ok_run hart h
  have hresp2 : resp2 = resp := by
    rw [hllm] at hllm2
    injection hllm2 with hx
    exact hx.symm
  have hcontent : jsOrString resp2 article.content = article.content := by
    rw [hresp2]
    rcases hresp with h0 | h0 <;> rw [h0] <;> simp [jsOrString]
  obtain ⟨_, hget, _, _, _⟩ := setArticle_complete_spec hsa
  refine ⟨updatedArticle article input resp2 (nowTime s).1, hget, ?_, rfl, rfl,
    ?_⟩
  · show jsOrString resp2 article.content = article.content
    exact hcontent
  · rw [hr, hcontent]

/-- C9 witness: a concrete empty-response revision keeps the old body while
bumping version. -/
theorem updateArticle_empty_revision_witness :
    ∃ article2 : Article,
      getArticle (updateArticle { articleId := "art1" }
          { apiKey := some "k", llm := Except.ok (some "") }
          sysArticleOne).2.store "art1" = some article2 ∧
      article2.content = sampleArticle.content ∧
      article2.version = sampleArticle.version + 1 := by
  obtain ⟨a2, hget, hc, hv, _, _⟩ :=
    updateArticle_empty_revision { articleId := "art1" }
      { apiKey := some "k", llm := Except.ok (some "") } sysArticleOne _
      sampleArticle _ (some "") rfl rfl (Or.inr rfl) rfl
  exact ⟨a2, hget, hc, hv⟩

/-- genId leaves the store untouched. -/
theorem genId_store (s : Sys) : (genId s).2.store = s.store := by
  unfold genId
  cases hseq : s.idSeq <;> rfl

/-- nowTime leaves the store untouched. -/
theorem nowTime_store (s : Sys) : (nowTime s).2.store = s.store := by
  unfold nowTime
  cases hseq : s.timeSeq <;> rfl

-- ===========================================================================
-- Run characterization of createArticle
-- ===========================================================================

/-- The gathered source blocks are empty exactly when no supplied id
resolves. -/
theorem sourceContent_nil_iff (ids : List String) (st : Storage) :
    ids.filterMap (fun id => (getContent st id).map sourceBlock) = []
      ↔ ∀ id ∈ ids, getContent st id = none := by
  rw [List.filterMap_eq_nil_iff]
  constructor
  · intro h id hid
    have := h id hid
    rcases hv : getContent st id with _ | c
    · rfl
    · rw [hv] at this
      simp at this
  · intro h id hid
    rw [h id hid]
    rfl

/-- What a complete createArticle with at least one resolvable id did: the
model was consulted once and the created article was persisted through
setArticle, with the article passthrough envelope returned. -/
theorem createArticle_ok_run {input : ActionInput} {ext : ExtEnv} {s s1 : Sys}
    {r : ActionResult}
    (hsome : ∃ id ∈ input.contentIds, (getContent s.store id).isSome)
    (h : createArticle input ext s = (Except.ok r, s1)) :
    ∃ resp, ext.llm = Except.ok resp ∧
      setArticle (createdArticle input s resp)
        (nowTime (nowTime (genId s).2).2).2 = (Except.ok (), s1) ∧
      r = passthroughResult
        [("contentType", JValue.str "article"),
         ("content", JValue.str ("# " ++ (createdArticle input s resp).title
           ++ "\n\n" ++ resp.getD "")),
         ("metadata", JValue.obj
           [("articleId", JValue.str (genId s).1),
            ("title",
             JValue.str (createdArticle input s resp).title)])] := by
  have hne : ¬ (input.contentIds.filterMap
      (fun id => (getContent s.store id).map sourceBlock)).length = 0 := by
    rw [List.length_eq_zero, sourceContent_nil_iff]
    intro hall
    obtain ⟨id, hid, hsome2⟩ := hsome
    rw [hall id hid] at hsome2
    simp at hsome2
  unfold createArticle at h
  rw [if_neg hne] at h
  rcases hoa : getOpenAI ext with e | u
  · rw [hoa] at h
    simp at h
  rw [hoa] at h
  simp only at h
  rcases hllm : ext.llm with e | resp
  · rw [hllm] at h
    simp at h
  rw [hllm] at h
  simp only at h
  rcases hg : genId s with ⟨aid, sG⟩
  rw [hg] at h
  simp only at h
  rcases ht1 : nowTime sG with ⟨t1, sT1⟩
  rw [ht1] at h
  simp only at h
  rcases ht2 : nowTime sT1 with ⟨t2, sT2⟩
  rw [ht2] at h
  simp only at h
  rcases hsa : setArticle
      { id := aid,
        title := jsOrString input.title
          (jsOrString (extractH1 (resp.getD "")) "Untitled Article"),
        content := resp.getD "",
        sourceContentIds := input.contentIds,
        instructions := input.instructions,
        version := 1, createdAt := t1, updatedAt := t2 } sT2
    with ⟨res, sB⟩
  rw [hsa] at h
  rcases res with e | u
  · simp at h
  simp only at h
  cases h
  cases u
  have haid : (genId s).1 = aid := by rw [hg]
  have hsG : (genId s).2 = sG := by rw [hg]
  have ht1a : (nowTime (genId s).2).1 = t1 := by rw [hsG, ht1]
  have ht1b : (nowTime (genId s).2).2 = sT1 := by rw [hsG, ht1]
  have ht2a : (nowTime (nowTime (genId s).2).2).1 = t2 := by rw [ht1b, ht2]
  have ht2b : (nowTime (nowTime (genId s).2).2).2 = sT2 := by rw [ht1b, ht2]
  refine ⟨resp, rfl, ?_, ?_⟩
  · unfold createdArticle
    rw [haid, ht1a, ht2a]
    exact hsa
  · unfold createdArticle
    rfl

-- ===========================================================================
-- Claim C5
-- ===========================================================================

/-- C5: createArticle with no resolvable content id returns the passthrough
error and leaves the state untouched (no article record, no index entry);
with at least one resolvable id, a completed call writes exactly one new
article, stored at version 1 under the fresh id, leaving every other article
lookup and every content record unchanged. -/
theorem createArticle_spec :
    ∀ (input : ActionInput) (ext : ExtEnv) (s : Sys),
    ((∀ id ∈ input.contentIds, getContent s.store id = none) →
      createArticle input ext s
        = (Except.ok (passthroughError "No valid content pieces found"), s)) ∧
    (∀ (r : ActionResult) (s1 : Sys),
      (∃ id ∈ input.contentIds, (getContent s.store id).isSome) →
      getArticle s.store (genId s).1 = none →
      createArticle input ext s = (Except.ok r, s1) →
      ∃ article : Article,
        article.version = 1 ∧
        getArticle s1.store (genId s).1 = some article ∧
        (∀ x, x ≠ (genId s).1 →
          getArticle s1.store x = getArticle s.store x) ∧
        (∀ x, getContent s1.store x = getContent s.store x)) := by
  intro input ext s
  constructor
  · intro hall
    have hz : (input.contentIds.filterMap
        (fun id => (getContent s.store id).map sourceBlock)).length = 0 := by
      rw [List.length_eq_zero, sourceContent_nil_iff]
      exact hall
    unfold createArticle
    rw [if_pos hz]
  · intro r s1 hsome hfresh h
    obtain ⟨resp, hllm, hsa, hr⟩ := createArticle_ok_run hsome h
    obtain ⟨hix, hget, hothers, hcontent, _⟩ := setArticle_complete_spec hsa
    have hstore : (nowTime (nowTime (genId s).2).2).2.store = s.store := by
      rw [nowTime_store, nowTime_store, genId_store]
    refine ⟨createdArticle input s resp, rfl, hget, ?_, ?_⟩
    · intro x hx
      rw [hothers x hx, hstore]
    · intro x
      rw [hcontent x, hstore]

/-- C5 witness: the all-missing branch at the empty store and a concrete
successful creation at version 1. -/
theorem createArticle_spec_witness :
    createArticle { contentIds := ["z"], instructions := "i" } {} emptySys
      = (Except.ok (passthroughError "No valid content pieces found"),
         emptySys) ∧
    (∃ article : Article,
      article.version = 1 ∧
      getArticle (createArticle
          { contentIds := ["a"], instructions := "i" }
          { apiKey := some "k", llm := Except.ok (some "# T\n\nbody") }
          sysTwoRecords).2.store "art9" = some article) := by
  constructor
  · refine (createArticle_spec { contentIds := ["z"], instructions := "i" }
      {} emptySys).1 ?_
    intro id hid
    have : id = "z" := by simpa using hid
    subst this
    rfl
  · obtain ⟨article, hv, hget, _, _⟩ :=
      (createArticle_spec { contentIds := ["a"], instructions := "i" }
        { apiKey := some "k", llm := Except.ok (some "# T\n\nbody") }
        sysTwoRecords).2 _ _ ⟨"a", by decide, by decide⟩ rfl rfl
    exact ⟨article, hv, hget⟩

-- ===========================================================================
-- Claim C8
-- ===========================================================================

/-- C8: when createArticle completes successfully, the persisted article
carries the full input contentIds list verbatim as sourceContentIds,
including unresolved ids and duplicates. -/
theorem createArticle_persists_input_ids_verbatim :
    ∀ (input : ActionInput) (ext : ExtEnv) (s : Sys) (r : ActionResult)
      (s1 : Sys),
    (∃ id ∈ input.contentIds, (getContent s.store id).isSome) →
    createArticle input ext s = (Except.ok r, s1) →
    ∃ article : Article,
      getArticle s1.store (genId s).1 = some article ∧
      article.sourceContentIds = input.contentIds := by
  intro input ext s r s1 hsome h
  obtain ⟨resp, hllm, hsa, hr⟩ := createArticle_ok_run hsome h
  obtain ⟨_, hget, _, _, _⟩ := setArticle_complete_spec hsa
  exact ⟨createdArticle input s resp, hget, rfl⟩

/-- C8 witness: a duplicate and an unresolvable id are persisted verbatim. -/
theorem createArticle_persists_input_ids_verbatim_witness :
    ∃ article : Article,
      getArticle (createArticle
          { contentIds := ["a", "ghost", "a"], instructions := "i" }
          { apiKey := some "k", llm := Except.ok (some "body") }
          sysTwoRecords).2.store "art9" = some article ∧
      article.sourceContentIds = ["a", "ghost", "a"] := by
  obtain ⟨article, hget, hids⟩ :=
    createArticle_persists_input_ids_verbatim
      { contentIds := ["a", "ghost", "a"], instructions := "i" }
      { apiKey := some "k", llm := Except.ok (some "body") }
      sysTwoRecords _ _ ⟨"a", by decide, by decide⟩ rfl
  exact ⟨article, hget, hids⟩

-- ===========================================================================
-- Run characterization of setContent and the feed ingestion loop
-- ===========================================================================

/-- Both outcomes of storageSet leave the id and clock streams alone. -/
theorem storageSet_seqs (key : String) (v : StorageValue) (s : Sys) :
    (storageSet key v s).2.idSeq = s.idSeq ∧
    (storageSet key v s).2.timeSeq = s.timeSeq := by
  unfold storageSet
  rcases ho : s.setOutcomes with _ | ⟨o, rest⟩
  · exact ⟨rfl, rfl⟩
  · rcases o with _ | e
    · exact ⟨rfl, rfl⟩
    · exact ⟨rfl, rfl⟩

/-- An error outcome of storageSet leaves the store unwritten. -/
theorem storageSet_error_store {key : String} {v : StorageValue} {s s1 : Sys}
    {e : String} (h : storageSet key v s = (Except.error e, s1)) :
    s1.store = s.store := by
  unfold storageSet at h
  split at h
  · simp at h
  · simp at h
  · cases h; rfl

/-- Any outcome of setContent leaves the id and clock streams alone. -/
theorem setContent_seqs {c : ContentPiece} {s s1 : Sys}
    {res : Except String Unit} (h : setContent c s = (res, s1)) :
    s1.idSeq = s.idSeq ∧ s1.timeSeq = s.timeSeq := by
  unfold setContent at h
  rcases h1 : storageSet (contentKey c.id) (StorageValue.content c) s
    with ⟨r1, sA⟩
  have hA := storageSet_seqs (contentKey c.id) (StorageValue.content c) s
  rw [h1] at hA h
  rcases r1 with e | u
  · simp only at h
    cases h
    exact hA
  · simp only at h
    rcases hidx : getContentIndex sA.store with e | ids
    · rw [hidx] at h
      simp only at h
      cases h
      exact hA
    · rw [hidx] at h
      simp only at h
      by_cases hin : c.id ∈ ids
      · rw [if_pos hin] at h
        cases h
        exact hA
      · rw [if_neg hin] at h
        have hB := storageSet_seqs contentIndexKey
          (StorageValue.index (ids ++ [c.id])) sA
        rw [h] at hB
        exact ⟨hB.1.trans hA.1, hB.2.trans hA.2⟩

/-- A completed setContent makes its record retrievable under its id. -/
theorem setContent_ok_getContent {c : ContentPiece} {s s1 : Sys}
    (h : setContent c s = (Except.ok (), s1)) :
    getContent s1.store c.id = some c := by
  unfold setContent at h
  rcases h1 : storageSet (contentKey c.id) (StorageValue.content c) s
    with ⟨r1, sA⟩
  rw [h1] at h
  rcases r1 with e | u
  · simp at h
  obtain ⟨hstA, _, _⟩ := storageSet_ok h1
  simp only at h
  rcases eq_or_ne c.id "index" with hix | hix
  · have hkey : contentKey c.id = contentIndexKey := by
      rw [hix]; decide
    have hbad : getContentIndex sA.store
        = Except.error "TypeError: content index is not an array" := by
      rw [hstA]
      unfold getContentIndex Storage.setKey
      simp [hkey]
    rw [hbad] at h
    simp at h
  · rcases hidx : getContentIndex sA.store with e | ids
    · rw [hidx] at h
      simp at h
    · rw [hidx] at h
      simp only at h
      by_cases hin : c.id ∈ ids
      · rw [if_pos hin] at h
        cases h
        rw [hstA, getContent_setKey_content, if_pos rfl]
      · rw [if_neg hin] at h
        rcases h2 : storageSet contentIndexKey
            (StorageValue.index (ids ++ [c.id])) sA with ⟨r2, sB⟩
        rw [h2] at h
        rcases r2 with e | u
        · simp at h
        · cases h
          obtain ⟨hstB, _, _⟩ := storageSet_ok h2
          rw [hstB, getContent_setKey_index, if_neg hix, hstA,
            getContent_setKey_content, if_pos rfl]

/-- Any outcome of setContent leaves records of other non-"index" ids
unchanged. -/
theorem setContent_frame {c : ContentPiece} {s s1 : Sys}
    {res : Except String Unit} (h : setContent c s = (res, s1)) :
    ∀ x, x ≠ c.id → x ≠ "index" →
      getContent s1.store x = getContent s.store x := by
  intro x hxc hxi
  unfold setContent at h
  rcases h1 : storageSet (contentKey c.id) (StorageValue.content c) s
    with ⟨r1, sA⟩
  rw [h1] at h
  rcases r1 with e | u
  · simp only at h
    cases h
    rw [storageSet_error_store h1]
  · obtain ⟨hstA, _, _⟩ := storageSet_ok h1
    have hAx : getContent sA.store x = getContent s.store x := by
      rw [hstA, getContent_setKey_content, if_neg hxc]
    simp only at h
    rcases hidx : getContentIndex sA.store with e | ids
    · rw [hidx] at h
      simp only at h
      cases h
      exact hAx
    · rw [hidx] at h
      simp only at h
      by_cases hin : c.id ∈ ids
      · rw [if_pos hin] at h
        cases h
        exact hAx
      · rw [if_neg hin] at h
        rcases h2 : storageSet contentIndexKey
            (StorageValue.index (ids ++ [c.id])) sA with ⟨r2, sB⟩
        rw [h2] at h
        rcases r2 with e | u
        · cases h
          rw [storageSet_error_store h2]
          exact hAx
        · cases h
          obtain ⟨hstB, _, _⟩ := storageSet_ok h2
          rw [hstB, getContent_setKey_index, if_neg hxi]
          exact hAx

/-- Any outcome of nowTime leaves the store and the id stream alone. -/
theorem nowTime_parts (s : Sys) :
    (nowTime s).2.store = s.store ∧ (nowTime s).2.idSeq = s.idSeq ∧
    (nowTime s).2.setOutcomes = s.setOutcomes := by
  unfold nowTime
  rcases ht : s.timeSeq with _ | ⟨t, ts⟩
  · exact ⟨rfl, rfl, rfl⟩
  · exact ⟨rfl, rfl, rfl⟩

/-- With enough ids in the stream, the feed ingestion loop touches only the
records of the ids it consumed and the index. -/
theorem writeFeedPieces_frame (items : List FeedItem) (tags : List String) :
    ∀ (s : Sys) (res : Except String Unit) (s1 : Sys),
    writeFeedPieces items tags s = (res, s1) →
    items.length ≤ s.idSeq.length →
    ∀ x, x ∉ s.idSeq.take items.length → x ≠ "index" →
      getContent s1.store x = getContent s.store x := by
  induction items with
  | nil =>
    intro s res s1 h _ x _ _
    unfold writeFeedPieces at h
    cases h
    rfl
  | cons item rest ih =>
    intro s res s1 h hlen x hx hxi
    rcases hi : s.idSeq with _ | ⟨id0, ids2⟩
    · rw [hi] at hlen
      simp at hlen
    rw [hi] at hx
    rw [List.length_cons, List.take_succ_cons, List.mem_cons, not_or] at hx
    obtain ⟨hxid0, hxrest⟩ := hx
    unfold writeFeedPieces at h
    have hg : genId s = (id0, { s with idSeq := ids2 }) := by
      unfold genId
      rw [hi]
    rw [hg] at h
    simp only at h
    rcases hnt : nowTime { s with idSeq := ids2 } with ⟨t0, sT⟩
    rw [hnt] at h
    simp only at h
    have hTparts := nowTime_parts { s with idSeq := ids2 }
    rw [hnt] at hTparts
    obtain ⟨hTstore, hTids, _⟩ := hTparts
    rcases hset : setContent (feedPiece item tags id0 t0) sT
      with ⟨res0, s3⟩
    rw [hset] at h
    have hframe0 : getContent s3.store x = getContent s.store x := by
      rw [setContent_frame hset x hxid0 hxi, hTstore]
    rcases res0 with e | u
    · simp only at h
      cases h
      exact hframe0
    · simp only at h
      have h3ids : s3.idSeq = ids2 := by
        obtain ⟨hseq, _⟩ := setContent_seqs hset
        rw [hseq, hTids]
      have hlen2 : rest.length ≤ s3.idSeq.length := by
        rw [h3ids]
        rw [hi] at hlen
        simpa using hlen
      have hx2 : x ∉ s3.idSeq.take rest.length := by
        rw [h3ids]
        exact hxrest
      rw [ih s3 res s1 h hlen2 x hx2 hxi]
      exact hframe0

/-- With enough fresh distinct ids in the stream, the feed ingestion loop
persists one piece per processed item: all of them when it completes, and
every piece written before the failing step when a write rejects.  The
number k of completed writes is not existentially loose: each loop iteration
draws exactly one id before its setContent, so the residual id stream pins k
(k ids consumed on completion, k+1 on a failure, the failing iteration
having drawn its id too). -/
theorem writeFeedPieces_persist (items : List FeedItem) (tags : List String) :
    ∀ (s : Sys) (res : Except String Unit) (s1 : Sys),
    writeFeedPieces items tags s = (res, s1) →
    items.length ≤ s.idSeq.length →
    items.length ≤ s.timeSeq.length →
    (s.idSeq.take items.length).Nodup →
    "index" ∉ s.idSeq.take items.length →
    ∃ k, k ≤ items.length ∧
      (res = Except.ok () → k = items.length ∧
        s1.idSeq = s.idSeq.drop items.length) ∧
      (∀ e, res = Except.error e → k < items.length ∧
        s1.idSeq = s.idSeq.drop (k + 1)) ∧
      ∀ i, i < k →
        ∃ item id t, items[i]? = some item ∧ s.idSeq[i]? = some id ∧
          s.timeSeq[i]? = some t ∧
          getContent s1.store id = some (feedPiece item tags id t) := by
  induction items with
  | nil =>
    intro s res s1 h _ _ _ _
    unfold writeFeedPieces at h
    cases h
    refine ⟨0, Nat.le_refl 0, fun _ => ⟨rfl, by simp⟩,
      fun e he => by simp at he, fun i hi => absurd hi (by simp)⟩
  | cons item rest ih =>
    intro s res s1 h hlen1 hlen2 hnd hnix
    rcases hi : s.idSeq with _ | ⟨id0, ids2⟩
    · rw [hi] at hlen1
      simp at hlen1
    rcases hts : s.timeSeq with _ | ⟨t0, ts2⟩
    · rw [hts] at hlen2
      simp at hlen2
    rw [hi, List.length_cons, List.take_succ_cons] at hnd hnix
    have hnd2 := List.nodup_cons.mp hnd
    have hid0idx : id0 ≠ "index" := by
      intro hh
      subst hh
      exact hnix (List.mem_cons_self _ _)
    have hnix2 : "index" ∉ ids2.take rest.length := by
      intro hh
      exact hnix (List.mem_cons_of_mem _ hh)
    unfold writeFeedPieces at h
    have hg : genId s = (id0, { s with idSeq := ids2 }) := by
      unfold genId
      rw [hi]
    rw [hg] at h
    simp only at h
    have hnt : nowTime { s with idSeq := ids2 }
        = (t0, { s with idSeq := ids2, timeSeq := ts2 }) := by
      unfold nowTime
      rw [show ({ s with idSeq := ids2 } : Sys).timeSeq = t0 :: ts2 from hts]
    rw [hnt] at h
    simp only at h
    rcases hset : setContent (feedPiece item tags id0 t0)
        { s with idSeq := ids2, timeSeq := ts2 } with ⟨res0, s3⟩
    rw [hset] at h
    obtain ⟨h3ids, h3ts⟩ := setContent_seqs hset
    simp only at h3ids h3ts
    rcases res0 with e | u
    · simp only at h
      cases h
      refine ⟨0, Nat.zero_le _, fun hok => by simp at hok,
        fun e2 he2 => ⟨by rw [List.length_cons]; exact Nat.succ_pos _,
          by simp [h3ids]⟩,
        fun i hi2 => absurd hi2 (by simp)⟩
    · cases u
      simp only at h
      have hlen1b : rest.length ≤ s3.idSeq.length := by
        rw [h3ids]
        rw [hi] at hlen1
        simpa using hlen1
      have hlen2b : rest.length ≤ s3.timeSeq.length := by
        rw [h3ts]
        rw [hts] at hlen2
        simpa using hlen2
      have hndb : (s3.idSeq.take rest.length).Nodup := by
        rw [h3ids]
        exact hnd2.2
      have hnixb : "index" ∉ s3.idSeq.take rest.length := by
        rw [h3ids]
        exact hnix2
      obtain ⟨k2, hk1, hk2, hk3, hk4⟩ :=
        ih s3 res s1 h hlen1b hlen2b hndb hnixb
      refine ⟨k2 + 1, ?_, ?_, ?_, ?_⟩
      · rw [List.length_cons]
        exact Nat.succ_le_succ hk1
      · intro hok
        obtain ⟨hke, hkd⟩ := hk2 hok
        refine ⟨by rw [List.length_cons, hke], ?_⟩
        rw [hkd, h3ids, List.length_cons, List.drop_succ_cons]
      · intro e2 he2
        obtain ⟨hklt, hkd⟩ := hk3 e2 he2
        refine ⟨by rw [List.length_cons]; omega, ?_⟩
        rw [hkd, h3ids, List.drop_succ_cons]
      · intro i hi2
        rcases i with _ | j
        · refine ⟨item, id0, t0, by simp, by simp, by simp, ?_⟩
          have hrec := setContent_ok_getContent hset
          have hfr := writeFeedPieces_frame rest tags s3 res s1 h hlen1b
            id0 (by rw [h3ids]; exact hnd2.1) hid0idx
          rw [hfr]
          exact hrec
        · have hj : j < k2 := Nat.lt_of_succ_lt_succ hi2
          obtain ⟨item2, id2, t2, ha, hb, hc, hd⟩ := hk4 j hj
          refine ⟨item2, id2, t2, ?_, ?_, ?_, hd⟩
          · rw [← ha]
            simp
          · rw [h3ids] at hb
            simp only [List.getElem?_cons_succ]
            exact hb
          · rw [h3ts] at hc
            simp only [List.getElem?_cons_succ]
            exact hc

-- ===========================================================================
-- Claim C6
-- ===========================================================================

/-- C6: addInspiration classified as a feed creates one ContentPiece per feed
item, each carrying the shared input tags and inspirationType feed, and
returns success with contentCount equal to the number of items; classified as
single it creates exactly one ContentPiece and returns success with
contentCount 1; any thrown error inside the try block yields the error
envelope with contentCount 0, and in the feed case every piece written before
the failing step remains persisted: the index k of the failing step is not
chosen loosely but pinned by the residual id stream (k + 1 ids were drawn,
one per attempted write), and every piece with index below k is still
retrievable afterwards. -/
theorem addInspiration_spec :
    ∀ (input : ActionInput) (ext : ExtEnv) (s : Sys),
    (∀ (items : List FeedItem) (s1 : Sys),
      detectUrlType ext = InspirationType.feed →
      fetchFeedContent input.url ext = Except.ok items →
      writeFeedPieces items (input.tags.getD []) s = (Except.ok (), s1) →
      addInspiration input ext s = (feedSuccessEnvelope items.length, s1) ∧
      (items.length ≤ s.idSeq.length → items.length ≤ s.timeSeq.length →
        (s.idSeq.take items.length).Nodup →
        "index" ∉ s.idSeq.take items.length →
        ∀ i, i < items.length →
          ∃ item id t, items[i]? = some item ∧ s.idSeq[i]? = some id ∧
            s.timeSeq[i]? = some t ∧
            getContent s1.store id
              = some (feedPiece item (input.tags.getD []) id t) ∧
            (feedPiece item (input.tags.getD []) id t).tags
              = input.tags.getD [] ∧
            (feedPiece item (input.tags.getD []) id t).inspirationType
              = InspirationType.feed)) ∧
    (∀ (page : SinglePage) (s1 : Sys),
      detectUrlType ext = InspirationType.single →
      ext.fetchSingle = Except.ok page →
      setContent (singlePiece input.url page (input.tags.getD [])
          (genId s).1 (nowTime (genId s).2).1) (nowTime (genId s).2).2
        = (Except.ok (), s1) →
      addInspiration input ext s = (singleSuccessEnvelope, s1) ∧
      getContent s1.store (genId s).1
        = some (singlePiece input.url page (input.tags.getD [])
            (genId s).1 (nowTime (genId s).2).1)) ∧
    (∀ (e : String) (s1 : Sys),
      addInspirationBody input ext s = (Except.error e, s1) →
      addInspiration input ext s = (inspirationErrorEnvelope, s1)) ∧
    (∀ (items : List FeedItem) (e : String) (s1 : Sys),
      detectUrlType ext = InspirationType.feed →
      fetchFeedContent input.url ext = Except.ok items →
      writeFeedPieces items (input.tags.getD []) s = (Except.error e, s1) →
      items.length ≤ s.idSeq.length → items.length ≤ s.timeSeq.length →
      (s.idSeq.take items.length).Nodup →
      "index" ∉ s.idSeq.take items.length →
      ∃ k, k < items.length ∧ s1.idSeq = s.idSeq.drop (k + 1) ∧
        ∀ i, i < k →
          ∃ item id t, items[i]? = some item ∧ s.idSeq[i]? = some id ∧
            s.timeSeq[i]? = some t ∧
            getContent s1.store id
              = some (feedPiece item (input.tags.getD []) id t)) := by
  intro input ext s
  refine ⟨?_, ?_, ?_, ?_⟩
  · intro items s1 hdet hfetch hwrite
    constructor
    · unfold addInspiration addInspirationBody
      rw [hdet]
      simp only
      rw [hfetch]
      simp only
      rw [hwrite]
    · intro hlen1 hlen2 hnd hnix i hi
      obtain ⟨k, _, hkok, _, hk4⟩ := writeFeedPieces_persist items
        (input.tags.getD []) s (Except.ok ()) s1 hwrite hlen1 hlen2 hnd hnix
      have hki : i < k := by
        rw [(hkok rfl).1]
        exact hi
      obtain ⟨item, id, t, ha, hb, hc, hd⟩ := hk4 i hki
      exact ⟨item, id, t, ha, hb, hc, hd, rfl, rfl⟩
  · intro page s1 hdet hfetchS hset
    unfold addInspiration addInspirationBody
    rw [hdet]
    simp only
    rw [hfetchS]
    simp only
    revert hset
    rcases hg : genId s with ⟨aid, sG⟩
    rcases hnt : nowTime sG with ⟨t0, sT⟩
    intro hset
    rw [hset]
    exact ⟨rfl, setContent_ok_getContent hset⟩
  · intro e s1 hbody
    unfold addInspiration
    rw [hbody]
  · intro items e s1 hdet hfetch hwrite hlen1 hlen2 hnd hnix
    obtain ⟨k, _, _, hkerr, hk4⟩ := writeFeedPieces_persist items
      (input.tags.getD []) s (Except.error e) s1 hwrite hlen1 hlen2 hnd hnix
    obtain ⟨hklt, hkd⟩ := hkerr e rfl
    exact ⟨k, hklt, hkd, hk4⟩

/-- C6 witness: a concrete two-item feed ingestion; a single-page fetch
failure yielding the zero-count error envelope; and a feed run whose second
record write rejects, where the no-rollback conjunct pins the failing step
at k = 1 and delivers the first piece still persisted. -/
theorem addInspiration_spec_witness :
    (addInspiration { url := "u", tags := some ["t"] } extFeedW sysFeedW).1
      = feedSuccessEnvelope 2 ∧
    getContent (addInspiration { url := "u", tags := some ["t"] } extFeedW
        sysFeedW).2.store "f1"
      = some (feedPiece { title := "A", content := "c1", link := "l1" }
          ["t"] "f1" 1) ∧
    (addInspiration { url := "u" } {} emptySys).1
      = inspirationErrorEnvelope ∧
    (addInspiration { url := "u", tags := some ["t"] } extFeedW
        sysFeedFailW).1 = inspirationErrorEnvelope ∧
    getContent (addInspiration { url := "u", tags := some ["t"] } extFeedW
        sysFeedFailW).2.store "f1"
      = some (feedPiece { title := "A", content := "c1", link := "l1" }
          ["t"] "f1" 1) := by
  have h := ((addInspiration_spec { url := "u", tags := some ["t"] } extFeedW
      sysFeedW).1
      [{ title := "A", content := "c1", link := "l1" },
       { title := "Untitled", content := "", link := "u" }]
      (writeFeedPieces
        [{ title := "A", content := "c1", link := "l1" },
         { title := "Untitled", content := "", link := "u" }] ["t"]
        sysFeedW).2 rfl rfl rfl).1
  obtain ⟨k, hklt, hkd, hp⟩ :=
    (addInspiration_spec { url := "u", tags := some ["t"] } extFeedW
      sysFeedFailW).2.2.2
      [{ title := "A", content := "c1", link := "l1" },
       { title := "Untitled", content := "", link := "u" }]
      "disk full"
      (writeFeedPieces
        [{ title := "A", content := "c1", link := "l1" },
         { title := "Untitled", content := "", link := "u" }] ["t"]
        sysFeedFailW).2 rfl rfl rfl (by decide) (by decide) (by decide)
      (by decide)
  have hklt2 : k < 2 := by simpa using hklt
  have hk1 : k = 1 := by
    interval_cases k
    · exact absurd hkd (by decide)
    · rfl
  subst hk1
  obtain ⟨item, id, t, ha, hb, hc, hd⟩ := hp 0 (by decide)
  simp only [List.getElem?_cons_zero, Option.some.injEq] at ha
  simp only [sysFeedFailW, List.getElem?_cons_zero, Option.some.injEq]
    at hb hc
  subst ha
  subst hb
  subst hc
  refine ⟨?_, by rfl, by rfl, by rfl, ?_⟩
  · rw [h]
    rfl
  · exact hd
